import Mathlib

/-!
Shallow embedding of `app_gerador_relatorio.py` (class `AutomacaoPPT`), the
image-intake / blur-check / slide-layout pipeline of the photo-report
generator, together with proofs about the claims of its specification.

Modelling conventions:
* Python strings (filenames) are modelled as their sequences of Unicode code
  points, `Nome := List ℕ`.  Python's `str` comparison is lexicographic on
  code points, which is exactly the `LinearOrder` on `List ℕ`; `str.lower()`
  on the ASCII range maps `A`-`Z` (65-90) to `a`-`z` (+32).
* The GUI queue protocol (`gui_queue.put`) pushes strings of a fixed set of
  shapes; each shape is modelled as one constructor of `Msg`
  (`PROGRESSO:<p>` ↦ `Msg.progresso p`, `FINALIZADO` ↦ `Msg.finalizado`, and
  so on; the correspondence is noted at each constructor).
* The filesystem and the image decoders are the environment `Env`: whether
  `PIL.Image.open(...).verify()` succeeds on a file (`pilOk`), the Laplacian
  variance `cv2` computes for it — `none` when `cv2.imread` returns `None`
  or raises (`cvDecode`), and whether `shutil.move` succeeds (`moveOk`).
* Python float arithmetic in the progress percentage
  `int(((i + 1) / total_imagens) * 100)` is modelled exactly: `progresso`
  below implements IEEE-754 binary64 round-to-nearest-even in integer
  arithmetic (the involved values are all in the normal range).
* A Python exception that the per-file `try` catches is modelled by the
  branch that the handler produces (`Msg.erroCorrompido` for
  `IOError`/`SyntaxError`, `Msg.erroInesperado` for the generic handler);
  in particular `contador_imagens_no_slide % layout_por_slide` with
  `layout_por_slide = 0` raises `ZeroDivisionError`, and
  `posicoes[slot]` with `slot ≥ len(posicoes)` raises `IndexError`, both
  caught by the generic per-file handler — these are explicit branches,
  never Lean's total `%` or a default element.
-/

/-- Filenames as sequences of Unicode code points (Python `str`); the order
and the decidable equality are those of `List ℕ`, which agree with Python's
`str` comparison. -/
abbrev Nome : Type := List ℕ

/-- Code points of a Lean string literal, used to write concrete filenames. -/
def codes (s : String) : Nome := s.toList.map Char.toNat

/-- Python `str.lower()` restricted to the ASCII letters, which is all the
extension test needs: code points 65-90 (`A`-`Z`) map to 97-122 (`a`-`z`). -/
def minusculas (nome : Nome) : Nome :=
  nome.map (fun c => if 65 ≤ c ∧ c ≤ 90 then c + 32 else c)

/-- The recognized image extensions of line 141:
`('.png', '.jpg', '.jpeg', '.gif', '.bmp')`. -/
def extensoes : List Nome :=
  [codes ".png", codes ".jpg", codes ".jpeg", codes ".gif", codes ".bmp"]

/-- Line 141: `f.lower().endswith(('.png', '.jpg', '.jpeg', '.gif', '.bmp'))`. -/
def isImagem (nome : Nome) : Bool :=
  extensoes.any (fun e => List.isSuffixOf e (minusculas nome))

/-- Line 141: `sorted([f for f in os.listdir(pasta_origem) if f.lower().endswith(...)])`.
Python's `sorted` on strings is ascending lexicographic on code points. -/
def imagensEncontradas (listing : List Nome) : List Nome :=
  List.insertionSort (· ≤ ·) (listing.filter isImagem)

/-- One slot position from the `posicoes` JSON array: `{left, top}` in cm. -/
structure Posicao where
  left : ℚ
  top : ℚ
deriving DecidableEq, Repr

/-- The settings `processar_imagens` reads (lines 76, 121-125).  The folder
paths, unit name and address only name filesystem locations and header text;
the filesystem itself is abstracted into `Env`. -/
structure Config where
  limiar_desfocagem : ℚ
  largura_cm : ℚ
  altura_cm : ℚ
  layout_por_slide : ℕ
  posicoes : List Posicao

/-- The environment a run observes: the directory listing, existence of the
source directory and the template file, and per-file behaviour of
`PIL` validation, `cv2` decoding (the Laplacian variance, `none` on decode
failure) and `shutil.move`. -/
structure Env where
  listing : List Nome
  sourceExists : Bool
  templateExists : Bool
  pilOk : Nome → Bool
  cvDecode : Nome → Option ℚ
  moveOk : Nome → Bool

/-- Lines 74-90, `verificar_desfocagem`: returns `(desfocada, erro_leitura)`.
`cv2.imread` failure (or any exception, caught at line 88) gives
`(False, True)`; otherwise blurry iff the Laplacian variance is strictly
below the threshold.  The comparison of two Python floats is exact
comparison of the rationals they denote. -/
def verificar_desfocagem (limiar : ℚ) (decoded : Option ℚ) : Bool × Bool :=
  match decoded with
  | none => (false, true)
  | some v => (decide (v < limiar), false)

/-- One message on the GUI queue (lines 112, 117, 145, 157-158, 187, 190,
199-202).  Each constructor is one string shape the source pushes:
`progresso p` ↦ `f"PROGRESSO:{p}"`;
`processando i total nome` ↦ `f"Processando {i}/{total}: {nome}"`;
`erroCorrompido nome` ↦ `f"ERRO: Ficheiro corrompido: {nome}"`;
`erroInesperado nome` ↦ `f"ERRO inesperado com: {nome}"`;
`erroPastaOrigem` ↦ `f"ERRO: Pasta de origem não encontrada: ..."`;
`erroTemplate` ↦ `f"ERRO: Ficheiro de template não encontrado: ..."`;
`nenhumaImagem` ↦ `"Nenhuma imagem encontrada para processar."`;
`separador` ↦ the dashed line; `concluido` ↦ `"PROCESSO CONCLUÍDO COM
SUCESSO!"`; `salvoEm` ↦ `f"Relatório salvo em: ..."`;
`finalizado` ↦ the sentinel `"FINALIZADO"`. -/
inductive Msg where
  | progresso (p : ℕ)
  | processando (i total : ℕ) (nome : Nome)
  | erroCorrompido (nome : Nome)
  | erroInesperado (nome : Nome)
  | erroPastaOrigem
  | erroTemplate
  | nenhumaImagem
  | separador
  | concluido
  | salvoEm
  | finalizado
deriving DecidableEq

/-- One picture inserted by `slide_atual.shapes.add_picture` (line 178):
which file, on which content slide (0-based, header slide not counted),
at which slot, at which configured position. -/
structure Placement where
  nome : Nome
  slideIdx : ℕ
  slotIdx : ℕ
  pos : Posicao
deriving DecidableEq

/-- The mutable state of the per-image loop (lines 148-190):
`contador` is `contador_imagens_no_slide` (never reset, so it equals the
number of pictures added so far), `contentSlides` counts the
`prs.slides.add_slide(prs.slide_layouts[5])` calls, `placements` the
`add_picture` calls, `movidas` the successful `shutil.move` calls, and
`sink` the messages pushed to `gui_queue`. -/
structure LoopState where
  contador : ℕ
  contentSlides : ℕ
  placements : List Placement
  movidas : List Nome
  sink : List Msg

/- ---------------------------------------------------------------------
IEEE-754 binary64 model of `int(((i + 1) / total_imagens) * 100)` (line 156).
Python computes `(i+1)/total` as a correctly rounded binary64 division,
multiplies by 100 with correct rounding, and truncates with `int`.
All values involved are positive and in the normal range, so a float is a
pair `(m, e)` with value `m * 2^(e-52)`; rounding is to nearest, ties to
even.  Everything is computable Nat/Int arithmetic.
--------------------------------------------------------------------- -/

/-- Fuel-driven binary logarithm, `log2f fuel n = ⌊log₂ n⌋` once `n ≤ fuel`
(structural recursion so that the kernel can evaluate it). -/
def log2f : ℕ → ℕ → ℕ
  | 0, _ => 0
  | fuel + 1, n => if 2 ≤ n then log2f fuel (n / 2) + 1 else 0

/-- Binary logarithm, rounded down; `log2n 0 = 0`. -/
def log2n (n : ℕ) : ℕ := log2f n n

/-- Round `N / d` (nonnegative) to the nearest integer, ties to even. -/
def rhePair (N d : ℕ) : ℕ :=
  if 2 * (N % d) < d then N / d
  else if d < 2 * (N % d) then N / d + 1
  else if N / d % 2 = 0 then N / d else N / d + 1

/-- The binary exponent of the positive rational `a / b`: the unique `e`
with `2^e ≤ a/b < 2^(e+1)` (for `1 ≤ a`, `1 ≤ b`). -/
def eexpF (a b : ℕ) : ℤ :=
  if (if log2n b ≤ log2n a then decide (b * 2 ^ (log2n a - log2n b) ≤ a)
      else decide (b ≤ a * 2 ^ (log2n b - log2n a)))
  then (log2n a : ℤ) - log2n b
  else (log2n a : ℤ) - log2n b - 1

/-- Round the positive rational `a / b` to the nearest binary64 value,
returned as mantissa/exponent with value `m * 2^(e-52)`. -/
def flp (a b : ℕ) : ℕ × ℤ :=
  let e := eexpF a b
  let s := (52 - e).toNat
  (rhePair (a * 2 ^ s) b, e)

/-- Line 156, `int(((i + 1) / total_imagens) * 100)` with `k = i + 1` and
`t = total_imagens`: binary64 division `k/t`, binary64 multiplication by
100, truncation.  Faithful for `1 ≤ k ≤ t` (the only arguments the loop
uses). -/
def progresso (k t : ℕ) : ℕ :=
  let p1 := flp k t
  let s1 := (52 - p1.2).toNat
  let p2 := flp (100 * p1.1) (2 ^ s1)
  let s2 := (52 - p2.2).toNat
  p2.1 / 2 ^ s2

/-- Lines 152-190, the body of `for i, nome_ficheiro in enumerate(...)`:
progress and status messages (155-158), `Image.open`/`verify` (161-162)
whose `IOError`/`SyntaxError` goes to the handler of line 185,
`verificar_desfocagem` (164-167) whose read error skips the file with a log
entry only, the capacity check with slide allocation (169-172), the slot
position lookup (174-176), `add_picture` (178), the counter increment (181)
and `shutil.move` (183) whose failure goes to the generic handler of
line 188. -/
def processarUm (cfg : Config) (env : Env) (total i : ℕ) (nome : Nome)
    (st : LoopState) : LoopState :=
  let st1 := { st with sink := st.sink ++
    [Msg.progresso (progresso (i + 1) total), Msg.processando (i + 1) total nome] }
  if env.pilOk nome = false then
    -- `Image.open`/`img.verify()` raised `IOError`/`SyntaxError` (line 185)
    { st1 with sink := st1.sink ++ [Msg.erroCorrompido nome] }
  else
    let r := verificar_desfocagem cfg.limiar_desfocagem (env.cvDecode nome)
    if r.2 then
      -- `erro_leitura`: line 166 logs and `continue`s; nothing on the queue
      st1
    else if cfg.layout_por_slide = 0 then
      -- `contador % 0` raises `ZeroDivisionError`, caught at line 188
      { st1 with sink := st1.sink ++ [Msg.erroInesperado nome] }
    else
      let slides :=
        if st1.contador % cfg.layout_por_slide = 0 then st1.contentSlides + 1
        else st1.contentSlides
      let slot := st1.contador % cfg.layout_por_slide
      match cfg.posicoes.get? slot with
      | none =>
        -- `posicoes[slot]` raises `IndexError` (slide already added), line 188
        { st1 with contentSlides := slides, sink := st1.sink ++ [Msg.erroInesperado nome] }
      | some p =>
        let st2 := { st1 with
          contentSlides := slides,
          placements := st1.placements ++
            [Placement.mk nome (st1.contador / cfg.layout_por_slide) slot p],
          contador := st1.contador + 1 }
        if env.moveOk nome then { st2 with movidas := st2.movidas ++ [nome] }
        else
          -- `shutil.move` raised, caught at line 188 (picture already placed)
          { st2 with sink := st2.sink ++ [Msg.erroInesperado nome] }

/-- The whole `for` loop of line 152, `i` being the `enumerate` index. -/
def loopImagens (cfg : Config) (env : Env) (total : ℕ) :
    List Nome → ℕ → LoopState → LoopState
  | [], _, st => st
  | nome :: resto, i, st =>
    loopImagens cfg env total resto (i + 1) (processarUm cfg env total i nome st)

/-- Observable filesystem-ordering events of lines 107-118: the two
`os.makedirs(..., exist_ok=True)` calls, then the two existence checks. -/
inductive Evento where
  | criaPastaDestino
  | criaPastaProcessadas
  | verificaPastaOrigem
  | verificaTemplate
deriving DecidableEq

/-- The outcome of one `processar_imagens` run. -/
structure RunResult where
  eventos : List Evento
  pastaDestinoCriada : Bool
  pastaProcessadasCriada : Bool
  headerSlide : Bool
  sink : List Msg
  contentSlides : ℕ
  placements : List Placement
  movidas : List Nome
  guardado : Bool

/-- Lines 92-208, `processar_imagens`: create the destination and processed
directories (107-108), abort if the source directory (110-113) or the
template file (115-118) is missing, add the header slide (131-139), list
and sort the candidates (141), return early when there are none (143-146),
run the loop (148-190), then save the deck and push the success messages
and the `FINALIZADO` sentinel (192-202).  The early `return`s of lines 113,
118 and 146 leave the `try` block without reaching line 202, so they push
no sentinel. -/
def processar_imagens (cfg : Config) (env : Env) : RunResult :=
  if env.sourceExists = false then
    { eventos := [.criaPastaDestino, .criaPastaProcessadas, .verificaPastaOrigem],
      pastaDestinoCriada := true, pastaProcessadasCriada := true,
      headerSlide := false, sink := [Msg.erroPastaOrigem],
      contentSlides := 0, placements := [], movidas := [], guardado := false }
  else if env.templateExists = false then
    { eventos := [.criaPastaDestino, .criaPastaProcessadas, .verificaPastaOrigem,
        .verificaTemplate],
      pastaDestinoCriada := true, pastaProcessadasCriada := true,
      headerSlide := false, sink := [Msg.erroTemplate],
      contentSlides := 0, placements := [], movidas := [], guardado := false }
  else
    let encontradas := imagensEncontradas env.listing
    if encontradas.isEmpty then
      { eventos := [.criaPastaDestino, .criaPastaProcessadas, .verificaPastaOrigem,
          .verificaTemplate],
        pastaDestinoCriada := true, pastaProcessadasCriada := true,
        headerSlide := true, sink := [Msg.nenhumaImagem],
        contentSlides := 0, placements := [], movidas := [], guardado := false }
    else
      let fin := loopImagens cfg env encontradas.length encontradas 0
        ⟨0, 0, [], [], []⟩
      { eventos := [.criaPastaDestino, .criaPastaProcessadas, .verificaPastaOrigem,
          .verificaTemplate],
        pastaDestinoCriada := true, pastaProcessadasCriada := true,
        headerSlide := true,
        sink := fin.sink ++ [Msg.separador, Msg.concluido, Msg.salvoEm, Msg.finalizado],
        contentSlides := fin.contentSlides, placements := fin.placements,
        movidas := fin.movidas, guardado := true }

/-- The `PROGRESSO:<p>` values of a message list, in order. -/
def valoresProgresso (sink : List Msg) : List ℕ :=
  sink.filterMap (fun m => match m with | Msg.progresso p => some p | _ => none)


/- ---------------------------------------------------------------------
Arithmetic facts about the binary64 model.
--------------------------------------------------------------------- -/

/-- The interpreted value of a mantissa/exponent pair. -/
def valF (p : ℕ × ℤ) : ℚ := (p.1 : ℚ) * 2 ^ (p.2 - 52)

theorem log2f_bounds : ∀ fuel n, n ≤ fuel → 1 ≤ n →
    2 ^ log2f fuel n ≤ n ∧ n < 2 ^ (log2f fuel n + 1) := by
  intro fuel
  induction fuel with
  | zero => intro n h1 h2; omega
  | succ fuel ih =>
    intro n hle h1
    rw [log2f]
    by_cases h2 : 2 ≤ n
    · rw [if_pos h2]
      have hrec := ih (n / 2) (by omega) (by omega)
      have e1 : 2 ^ (log2f fuel (n / 2) + 1) = 2 * 2 ^ log2f fuel (n / 2) := by ring
      have e2 : 2 ^ (log2f fuel (n / 2) + 1 + 1) = 2 * 2 ^ (log2f fuel (n / 2) + 1) := by
        ring
      constructor
      · rw [e1]; omega
      · rw [e2, e1]; omega
    · rw [if_neg h2]; omega

theorem log2n_le {n : ℕ} (h : 1 ≤ n) : 2 ^ log2n n ≤ n :=
  (log2f_bounds n n le_rfl h).1

theorem lt_log2n {n : ℕ} (h : 1 ≤ n) : n < 2 ^ (log2n n + 1) :=
  (log2f_bounds n n le_rfl h).2

theorem natCast_div_decomp (N d : ℕ) (hd : d ≠ 0) :
    (N : ℚ) / d = (N / d : ℕ) + ((N % d : ℕ) : ℚ) / d := by
  have h := Nat.div_add_mod N d
  have hq : ((d * (N / d) + N % d : ℕ) : ℚ) = (N : ℚ) := by exact_mod_cast h
  push_cast at hq
  have hd0 : (d : ℚ) ≠ 0 := Nat.cast_ne_zero.mpr hd
  field_simp
  linarith

theorem rhePair_spec (N d : ℕ) (hd : d ≠ 0) :
    ((N : ℚ) / d - 1 / 2 ≤ (rhePair N d : ℚ) ∧ (rhePair N d : ℚ) ≤ (N : ℚ) / d + 1 / 2)
    ∧ ((rhePair N d : ℚ) = (N : ℚ) / d + 1 / 2 → rhePair N d % 2 = 0)
    ∧ ((rhePair N d : ℚ) = (N : ℚ) / d - 1 / 2 → rhePair N d % 2 = 0) := by
  have hd0 : (0 : ℚ) < d := by exact_mod_cast Nat.pos_of_ne_zero hd
  have hdec := natCast_div_decomp N d hd
  have hrdN : N % d < d := Nat.mod_lt _ (Nat.pos_of_ne_zero hd)
  unfold rhePair
  split_ifs with h1 h2 h3
  · -- 2 * r < d : round down
    have hlt : ((N % d : ℕ) : ℚ) / d < 1 / 2 := by
      rw [div_lt_div_iff₀ hd0 (by norm_num)]
      have : ((2 * (N % d) : ℕ) : ℚ) < (d : ℚ) := by exact_mod_cast h1
      push_cast at this ⊢
      linarith
    have hr0 : (0 : ℚ) ≤ ((N % d : ℕ) : ℚ) / d := by positivity
    refine ⟨⟨by linarith, by linarith⟩, ?_, ?_⟩
    · intro h; exfalso; linarith
    · intro h; exfalso; linarith
  · -- d < 2 * r : round up
    have hgt : 1 / 2 < ((N % d : ℕ) : ℚ) / d := by
      rw [div_lt_div_iff₀ (by norm_num) hd0]
      have : (d : ℚ) < ((2 * (N % d) : ℕ) : ℚ) := by exact_mod_cast h2
      push_cast at this ⊢
      linarith
    have hrlt : ((N % d : ℕ) : ℚ) / d < 1 := by
      rw [div_lt_one hd0]; exact_mod_cast hrdN
    have hcast : ((N / d + 1 : ℕ) : ℚ) = ((N / d : ℕ) : ℚ) + 1 := by push_cast; ring
    rw [hcast]
    refine ⟨⟨by linarith, by linarith⟩, ?_, ?_⟩
    · intro h; exfalso; linarith
    · intro h; exfalso; linarith
  · -- tie, quotient even : round down
    have htie : ((N % d : ℕ) : ℚ) / d = 1 / 2 := by
      rw [div_eq_div_iff hd0.ne' (by norm_num : (2 : ℚ) ≠ 0)]
      have hNd : 2 * (N % d) = d := le_antisymm (not_lt.mp h2) (not_lt.mp h1)
      have : ((2 * (N % d) : ℕ) : ℚ) = (d : ℚ) := by exact_mod_cast hNd
      push_cast at this ⊢
      linarith
    refine ⟨⟨by linarith, by linarith⟩, ?_, ?_⟩
    · intro h; exfalso; linarith
    · intro _; exact h3
  · -- tie, quotient odd : round up
    have htie : ((N % d : ℕ) : ℚ) / d = 1 / 2 := by
      rw [div_eq_div_iff hd0.ne' (by norm_num : (2 : ℚ) ≠ 0)]
      have hNd : 2 * (N % d) = d := le_antisymm (not_lt.mp h2) (not_lt.mp h1)
      have : ((2 * (N % d) : ℕ) : ℚ) = (d : ℚ) := by exact_mod_cast hNd
      push_cast at this ⊢
      linarith
    have hcast : ((N / d + 1 : ℕ) : ℚ) = ((N / d : ℕ) : ℚ) + 1 := by push_cast; ring
    rw [hcast]
    refine ⟨⟨by linarith, by linarith⟩, ?_, ?_⟩
    · intro _; omega
    · intro h; exfalso; linarith

theorem le_rhePair (N d : ℕ) (hd : d ≠ 0) : (N : ℚ) / d - 1 / 2 ≤ (rhePair N d : ℚ) :=
  (rhePair_spec N d hd).1.1

theorem rhePair_le (N d : ℕ) (hd : d ≠ 0) : (rhePair N d : ℚ) ≤ (N : ℚ) / d + 1 / 2 :=
  (rhePair_spec N d hd).1.2

theorem rhePair_mono (N d N' d' : ℕ) (hd : d ≠ 0) (hd' : d' ≠ 0)
    (h : (N : ℚ) / d ≤ (N' : ℚ) / d') : rhePair N d ≤ rhePair N' d' := by
  by_contra hcon
  have hlt : rhePair N' d' + 1 ≤ rhePair N d := by omega
  have hltQ : (rhePair N' d' : ℚ) + 1 ≤ (rhePair N d : ℚ) := by exact_mod_cast hlt
  have s1 := rhePair_le N d hd
  have s2 := le_rhePair N' d' hd'
  have e1 : (rhePair N d : ℚ) = (N : ℚ) / d + 1 / 2 := by linarith
  have e2 : (rhePair N' d' : ℚ) = (N' : ℚ) / d' - 1 / 2 := by linarith
  have p1 := (rhePair_spec N d hd).2.1 e1
  have p2 := (rhePair_spec N' d' hd').2.2 e2
  have heq : (rhePair N d : ℚ) = (rhePair N' d' : ℚ) + 1 := by linarith
  have heqN : rhePair N d = rhePair N' d' + 1 := by exact_mod_cast heq
  omega

theorem rhePair_mul_self (c d : ℕ) (hd : d ≠ 0) : rhePair (d * c) d = c := by
  unfold rhePair
  have h1 : d * c / d = c := Nat.mul_div_cancel_left c (Nat.pos_of_ne_zero hd)
  have h2 : d * c % d = 0 := Nat.mul_mod_right d c
  rw [h1, h2]
  simp [Nat.pos_of_ne_zero hd]

theorem eexpF_cond_iff (a b : ℕ) (ha : 1 ≤ a) (hb : 1 ≤ b) :
    ((if log2n b ≤ log2n a then decide (b * 2 ^ (log2n a - log2n b) ≤ a)
      else decide (b ≤ a * 2 ^ (log2n b - log2n a))) = true)
    ↔ (2 : ℚ) ^ ((log2n a : ℤ) - log2n b) ≤ (a : ℚ) / b := by
  have hb0 : (0 : ℚ) < b := by exact_mod_cast hb
  by_cases hdb : log2n b ≤ log2n a
  · rw [if_pos hdb, decide_eq_true_iff]
    have key : (2 : ℚ) ^ ((log2n a : ℤ) - log2n b) = ((2 ^ (log2n a - log2n b) : ℕ) : ℚ) := by
      have hc : ((log2n a - log2n b : ℕ) : ℤ) = (log2n a : ℤ) - log2n b := by omega
      rw [← hc, zpow_natCast]
      push_cast
      ring
    rw [key, le_div_iff₀ hb0]
    constructor
    · intro h
      have h2 : 2 ^ (log2n a - log2n b) * b ≤ a := by rwa [Nat.mul_comm] at h
      exact_mod_cast h2
    · intro h
      have h2 : (2 ^ (log2n a - log2n b) * b : ℕ) ≤ a := by exact_mod_cast h
      rwa [Nat.mul_comm] at h2
  · rw [if_neg hdb, decide_eq_true_iff]
    have hlt : log2n a < log2n b := not_le.mp hdb
    have hP0 : (0 : ℚ) < ((2 ^ (log2n b - log2n a) : ℕ) : ℚ) := by positivity
    have key : (2 : ℚ) ^ ((log2n a : ℤ) - log2n b)
        = 1 / ((2 ^ (log2n b - log2n a) : ℕ) : ℚ) := by
      have hc : ((log2n b - log2n a : ℕ) : ℤ) = (log2n b : ℤ) - log2n a := by omega
      have : ((2 ^ (log2n b - log2n a) : ℕ) : ℚ) = (2 : ℚ) ^ ((log2n b : ℤ) - log2n a) := by
        rw [← hc, zpow_natCast]
        push_cast
        ring
      rw [this, one_div, ← zpow_neg]
      ring_nf
    rw [key, div_le_div_iff₀ hP0 hb0, one_mul]
    constructor
    · intro h
      exact_mod_cast h
    · intro h
      exact_mod_cast h

theorem eexpF_spec (a b : ℕ) (ha : 1 ≤ a) (hb : 1 ≤ b) :
    (2 : ℚ) ^ eexpF a b ≤ (a : ℚ) / b ∧ (a : ℚ) / b < 2 ^ (eexpF a b + 1) := by
  have hb0 : (0 : ℚ) < b := by exact_mod_cast hb
  have A1 : (2 : ℚ) ^ (log2n a : ℤ) ≤ a := by
    rw [zpow_natCast]
    exact_mod_cast log2n_le ha
  have A2 : (a : ℚ) < 2 ^ ((log2n a : ℤ) + 1) := by
    have hc : (log2n a : ℤ) + 1 = ((log2n a + 1 : ℕ) : ℤ) := by push_cast; ring
    rw [hc, zpow_natCast]
    exact_mod_cast lt_log2n ha
  have B1 : (2 : ℚ) ^ (log2n b : ℤ) ≤ b := by
    rw [zpow_natCast]
    exact_mod_cast log2n_le hb
  have B2 : (b : ℚ) < 2 ^ ((log2n b : ℤ) + 1) := by
    have hc : (log2n b : ℤ) + 1 = ((log2n b + 1 : ℕ) : ℤ) := by push_cast; ring
    rw [hc, zpow_natCast]
    exact_mod_cast lt_log2n hb
  have hUp : (a : ℚ) / b < 2 ^ ((log2n a : ℤ) - log2n b + 1) := by
    rw [div_lt_iff₀ hb0]
    calc (a : ℚ) < 2 ^ ((log2n a : ℤ) + 1) := A2
    _ = 2 ^ ((log2n a : ℤ) - log2n b + 1) * 2 ^ (log2n b : ℤ) := by
        rw [← zpow_add₀ (two_ne_zero : (2 : ℚ) ≠ 0)]
        ring_nf
    _ ≤ 2 ^ ((log2n a : ℤ) - log2n b + 1) * b := by
        exact mul_le_mul_of_nonneg_left B1 (by positivity)
  have hLo : 2 ^ ((log2n a : ℤ) - log2n b - 1) < (a : ℚ) / b := by
    rw [lt_div_iff₀ hb0]
    calc 2 ^ ((log2n a : ℤ) - log2n b - 1) * (b : ℚ)
        < 2 ^ ((log2n a : ℤ) - log2n b - 1) * 2 ^ ((log2n b : ℤ) + 1) := by
          exact mul_lt_mul_of_pos_left B2 (by positivity)
    _ = 2 ^ (log2n a : ℤ) := by
        rw [← zpow_add₀ (two_ne_zero : (2 : ℚ) ≠ 0)]
        ring_nf
    _ ≤ a := A1
  unfold eexpF
  by_cases hcond : (if log2n b ≤ log2n a then decide (b * 2 ^ (log2n a - log2n b) ≤ a)
      else decide (b ≤ a * 2 ^ (log2n b - log2n a))) = true
  · rw [if_pos hcond]
    exact ⟨(eexpF_cond_iff a b ha hb).mp hcond, hUp⟩
  · rw [if_neg hcond]
    have hnot : ¬ (2 : ℚ) ^ ((log2n a : ℤ) - log2n b) ≤ (a : ℚ) / b :=
      fun h => hcond ((eexpF_cond_iff a b ha hb).mpr h)
    constructor
    · exact le_of_lt hLo
    · have : (log2n a : ℤ) - log2n b - 1 + 1 = (log2n a : ℤ) - log2n b := by ring
      rw [this]
      exact not_le.mp hnot

theorem flp_snd (a b : ℕ) : (flp a b).2 = eexpF a b := by
  simp [flp]

theorem flp_fst (a b : ℕ) :
    (flp a b).1 = rhePair (a * 2 ^ (52 - eexpF a b).toNat) b := by
  simp [flp]

theorem flp_scaled (a b : ℕ) (he52 : eexpF a b ≤ 52) :
    ((a * 2 ^ (52 - eexpF a b).toNat : ℕ) : ℚ) / b
      = ((a : ℚ) / b) * 2 ^ ((52 : ℤ) - eexpF a b) := by
  have hs : (((52 - eexpF a b).toNat : ℤ)) = 52 - eexpF a b :=
    Int.toNat_of_nonneg (by omega)
  have hpow : ((2 ^ (52 - eexpF a b).toNat : ℕ) : ℚ) = (2 : ℚ) ^ ((52 : ℤ) - eexpF a b) := by
    rw [Nat.cast_pow, Nat.cast_ofNat, ← zpow_natCast (2 : ℚ), hs]
  rw [Nat.cast_mul, hpow]
  ring

theorem flp_z_range (a b : ℕ) (ha : 1 ≤ a) (hb : 1 ≤ b) (he52 : eexpF a b ≤ 52) :
    (2 : ℚ) ^ (52 : ℤ) ≤ ((a * 2 ^ (52 - eexpF a b).toNat : ℕ) : ℚ) / b
    ∧ ((a * 2 ^ (52 - eexpF a b).toNat : ℕ) : ℚ) / b < (2 : ℚ) ^ (53 : ℤ) := by
  have spec := eexpF_spec a b ha hb
  have hp : (0 : ℚ) < (2 : ℚ) ^ ((52 : ℤ) - eexpF a b) := by positivity
  have hexp1 : eexpF a b + ((52 : ℤ) - eexpF a b) = 52 := by ring
  have hexp2 : (eexpF a b + 1) + ((52 : ℤ) - eexpF a b) = 53 := by ring
  rw [flp_scaled a b he52]
  constructor
  · have h1 : (2 : ℚ) ^ (52 : ℤ) = 2 ^ eexpF a b * 2 ^ ((52 : ℤ) - eexpF a b) := by
      rw [← zpow_add₀ (two_ne_zero : (2 : ℚ) ≠ 0), hexp1]
    rw [h1]
    exact mul_le_mul_of_nonneg_right spec.1 (le_of_lt hp)
  · have h2 : (2 : ℚ) ^ (53 : ℤ) = 2 ^ (eexpF a b + 1) * 2 ^ ((52 : ℤ) - eexpF a b) := by
      rw [← zpow_add₀ (two_ne_zero : (2 : ℚ) ≠ 0), hexp2]
    rw [h2]
    exact mul_lt_mul_of_pos_right spec.2 hp

theorem flp_m_lower (a b : ℕ) (ha : 1 ≤ a) (hb : 1 ≤ b) (he52 : eexpF a b ≤ 52) :
    2 ^ 52 ≤ (flp a b).1 := by
  have hz := (flp_z_range a b ha hb he52).1
  have hr := le_rhePair (a * 2 ^ (52 - eexpF a b).toNat) b (by omega)
  rw [flp_fst]
  by_contra hcon
  have h1 : rhePair (a * 2 ^ (52 - eexpF a b).toNat) b + 1 ≤ 2 ^ 52 := by omega
  have h1Q : (rhePair (a * 2 ^ (52 - eexpF a b).toNat) b : ℚ) + 1 ≤ (2 : ℚ) ^ (52 : ℕ) := by
    exact_mod_cast h1
  have hzz : (2 : ℚ) ^ (52 : ℤ) = (2 : ℚ) ^ (52 : ℕ) := by
    rw [← zpow_natCast (2 : ℚ) 52]
    norm_num
  rw [hzz] at hz
  linarith

theorem flp_m_upper (a b : ℕ) (ha : 1 ≤ a) (hb : 1 ≤ b) (he52 : eexpF a b ≤ 52) :
    (flp a b).1 ≤ 2 ^ 53 := by
  have hz := (flp_z_range a b ha hb he52).2
  have hr := rhePair_le (a * 2 ^ (52 - eexpF a b).toNat) b (by omega)
  rw [flp_fst]
  by_contra hcon
  have h1 : 2 ^ 53 + 1 ≤ rhePair (a * 2 ^ (52 - eexpF a b).toNat) b := by omega
  have h1Q : (2 : ℚ) ^ (53 : ℕ) + 1 ≤ (rhePair (a * 2 ^ (52 - eexpF a b).toNat) b : ℚ) := by
    exact_mod_cast h1
  have hzz : (2 : ℚ) ^ (53 : ℤ) = (2 : ℚ) ^ (53 : ℕ) := by
    rw [← zpow_natCast (2 : ℚ) 53]
    norm_num
  rw [hzz] at hz
  linarith

theorem flp_val_lower (a b : ℕ) (ha : 1 ≤ a) (hb : 1 ≤ b) (he52 : eexpF a b ≤ 52) :
    (2 : ℚ) ^ eexpF a b ≤ valF (flp a b) := by
  have hm := flp_m_lower a b ha hb he52
  have hmQ : (2 : ℚ) ^ (52 : ℕ) ≤ ((flp a b).1 : ℚ) := by exact_mod_cast hm
  have hp : (0 : ℚ) < (2 : ℚ) ^ (eexpF a b - 52) := by positivity
  have hexp : (52 : ℤ) + (eexpF a b - 52) = eexpF a b := by ring
  have h1 : (2 : ℚ) ^ eexpF a b = (2 : ℚ) ^ (52 : ℕ) * 2 ^ (eexpF a b - 52) := by
    rw [← zpow_natCast (2 : ℚ) 52, ← zpow_add₀ (two_ne_zero : (2 : ℚ) ≠ 0)]
    norm_num
  rw [h1, valF, flp_snd]
  exact mul_le_mul_of_nonneg_right hmQ (le_of_lt hp)

theorem flp_val_upper (a b : ℕ) (ha : 1 ≤ a) (hb : 1 ≤ b) (he52 : eexpF a b ≤ 52) :
    valF (flp a b) ≤ (2 : ℚ) ^ (eexpF a b + 1) := by
  have hm := flp_m_upper a b ha hb he52
  have hmQ : ((flp a b).1 : ℚ) ≤ (2 : ℚ) ^ (53 : ℕ) := by exact_mod_cast hm
  have hp : (0 : ℚ) < (2 : ℚ) ^ (eexpF a b - 52) := by positivity
  have h1 : (2 : ℚ) ^ (eexpF a b + 1) = (2 : ℚ) ^ (53 : ℕ) * 2 ^ (eexpF a b - 52) := by
    rw [← zpow_natCast (2 : ℚ) 53, ← zpow_add₀ (two_ne_zero : (2 : ℚ) ≠ 0)]
    congr 1
    push_cast
    ring
  rw [h1, valF, flp_snd]
  exact mul_le_mul_of_nonneg_right hmQ (le_of_lt hp)

theorem flp_mono (a b a' b' : ℕ) (ha : 1 ≤ a) (hb : 1 ≤ b) (ha' : 1 ≤ a') (hb' : 1 ≤ b')
    (he : eexpF a b ≤ 52) (he' : eexpF a' b' ≤ 52)
    (h : (a : ℚ) / b ≤ (a' : ℚ) / b') : valF (flp a b) ≤ valF (flp a' b') := by
  have spec := eexpF_spec a b ha hb
  have spec' := eexpF_spec a' b' ha' hb'
  have hee : eexpF a b ≤ eexpF a' b' := by
    have h1 : (2 : ℚ) ^ eexpF a b < 2 ^ (eexpF a' b' + 1) :=
      lt_of_le_of_lt (le_trans spec.1 h) spec'.2
    have h2 := (zpow_lt_zpow_iff_right₀ (by norm_num : (1 : ℚ) < 2)).mp h1
    omega
  rcases eq_or_lt_of_le hee with heq | hlt
  · have hscale : ((a * 2 ^ (52 - eexpF a b).toNat : ℕ) : ℚ) / b
        ≤ ((a' * 2 ^ (52 - eexpF a' b').toNat : ℕ) : ℚ) / b' := by
      rw [flp_scaled a b he, flp_scaled a' b' he', ← heq]
      exact mul_le_mul_of_nonneg_right h (by positivity)
    have hm : (flp a b).1 ≤ (flp a' b').1 := by
      rw [flp_fst, flp_fst]
      exact rhePair_mono _ _ _ _ (by omega) (by omega) hscale
    rw [valF, valF, flp_snd, flp_snd, ← heq]
    exact mul_le_mul_of_nonneg_right (by exact_mod_cast hm) (by positivity)
  · have step1 := flp_val_upper a b ha hb he
    have step2 : (2 : ℚ) ^ (eexpF a b + 1) ≤ (2 : ℚ) ^ eexpF a' b' :=
      zpow_le_zpow_right₀ (by norm_num : (1 : ℚ) ≤ 2) (by omega)
    have step3 := flp_val_lower a' b' ha' hb' he'
    linarith

theorem eexpF_nonpos (a b : ℕ) (ha : 1 ≤ a) (hb : 1 ≤ b) (hab : a ≤ b) : eexpF a b ≤ 0 := by
  have hb0 : (0 : ℚ) < b := by exact_mod_cast hb
  have spec := eexpF_spec a b ha hb
  have h1 : (a : ℚ) / b ≤ 1 := by
    rw [div_le_one hb0]
    exact_mod_cast hab
  have h2 : (2 : ℚ) ^ eexpF a b ≤ (2 : ℚ) ^ (0 : ℤ) := by
    rw [zpow_zero]
    exact le_trans spec.1 h1
  exact (zpow_le_zpow_iff_right₀ (by norm_num : (1 : ℚ) < 2)).mp h2

theorem eexpF_le_52 (a b : ℕ) (ha : 1 ≤ a) (hb : 1 ≤ b)
    (h : (a : ℚ) / b < (2 : ℚ) ^ (53 : ℤ)) : eexpF a b ≤ 52 := by
  have spec := eexpF_spec a b ha hb
  have h2 : (2 : ℚ) ^ eexpF a b < (2 : ℚ) ^ (53 : ℤ) := lt_of_le_of_lt spec.1 h
  have := (zpow_lt_zpow_iff_right₀ (by norm_num : (1 : ℚ) < 2)).mp h2
  omega

theorem floor_natCast_div (N d : ℕ) (hd : d ≠ 0) : ⌊(N : ℚ) / d⌋ = ((N / d : ℕ) : ℤ) := by
  have hd0 : (0 : ℚ) < d := by exact_mod_cast Nat.pos_of_ne_zero hd
  have hdec := natCast_div_decomp N d hd
  have hrdN : N % d < d := Nat.mod_lt _ (Nat.pos_of_ne_zero hd)
  have hrlt : ((N % d : ℕ) : ℚ) / d < 1 := by
    rw [div_lt_one hd0]
    exact_mod_cast hrdN
  have hr0 : (0 : ℚ) ≤ ((N % d : ℕ) : ℚ) / d := by positivity
  rw [Int.floor_eq_iff]
  constructor
  · rw [hdec, Int.cast_natCast]
    linarith
  · rw [hdec, Int.cast_natCast]
    linarith

theorem eexpF_self (t : ℕ) (ht : 1 ≤ t) : eexpF t t = 0 := by
  unfold eexpF
  simp

theorem flp_self (t : ℕ) (ht : 1 ≤ t) : flp t t = (2 ^ 52, 0) := by
  have he := eexpF_self t ht
  have hr : rhePair (t * 2 ^ 52) t = 2 ^ 52 := rhePair_mul_self (2 ^ 52) t (by omega)
  have hs : ((52 : ℤ) - 0).toNat = 52 := by decide
  rw [Prod.ext_iff]
  constructor
  · show (flp t t).1 = 2 ^ 52
    rw [flp_fst, he, hs]
    exact hr
  · show (flp t t).2 = 0
    rw [flp_snd]
    exact he

theorem valF_div (p : ℕ × ℤ) : valF p = (p.1 : ℚ) / (2 : ℚ) ^ ((52 : ℤ) - p.2) := by
  have hexp : -((52 : ℤ) - p.2) = p.2 - 52 := by ring
  rw [valF, div_eq_mul_inv, ← zpow_neg, hexp]

theorem prog2_facts (k t : ℕ) (hk : 1 ≤ k) (hkt : k ≤ t) :
    1 ≤ 100 * (flp k t).1
    ∧ 1 ≤ 2 ^ (52 - (flp k t).2).toNat
    ∧ ((100 * (flp k t).1 : ℕ) : ℚ) / ((2 ^ (52 - (flp k t).2).toNat : ℕ) : ℚ)
        = 100 * valF (flp k t)
    ∧ eexpF (100 * (flp k t).1) (2 ^ (52 - (flp k t).2).toNat) ≤ 52 := by
  have ht : 1 ≤ t := le_trans hk hkt
  have he1 : eexpF k t ≤ 0 := eexpF_nonpos k t hk ht hkt
  have hm1 : 2 ^ 52 ≤ (flp k t).1 := flp_m_lower k t hk ht (by omega)
  have hM1 : 1 ≤ 100 * (flp k t).1 := by
    have : (0 : ℕ) < 2 ^ 52 := by positivity
    omega
  have hB1 : 1 ≤ 2 ^ (52 - (flp k t).2).toNat := Nat.one_le_two_pow
  have hpow2 : ((2 ^ (52 - (flp k t).2).toNat : ℕ) : ℚ) = (2 : ℚ) ^ ((52 : ℤ) - eexpF k t) := by
    rw [flp_snd, Nat.cast_pow, Nat.cast_ofNat, ← zpow_natCast (2 : ℚ),
      Int.toNat_of_nonneg (by omega)]
  have hfrac : ((100 * (flp k t).1 : ℕ) : ℚ) / ((2 ^ (52 - (flp k t).2).toNat : ℕ) : ℚ)
      = 100 * valF (flp k t) := by
    rw [hpow2, valF_div, flp_snd]
    push_cast
    ring
  refine ⟨hM1, hB1, hfrac, ?_⟩
  apply eexpF_le_52 _ _ hM1 hB1
  rw [hfrac]
  have hv := flp_val_upper k t hk ht (by omega)
  have hz : (2 : ℚ) ^ (eexpF k t + 1) ≤ (2 : ℚ) ^ (1 : ℤ) :=
    zpow_le_zpow_right₀ (by norm_num : (1 : ℚ) ≤ 2) (by omega)
  have h2 : (2 : ℚ) ^ (1 : ℤ) = 2 := by norm_num
  have hbig : (200 : ℚ) < 2 ^ (53 : ℤ) := by
    rw [show ((53 : ℤ)) = ((53 : ℕ) : ℤ) by norm_num, zpow_natCast]
    norm_num
  rw [h2] at hz
  nlinarith [hv, hz, hbig]

theorem flp_floor_div (M B : ℕ) (he : eexpF M B ≤ 52) :
    (⌊valF (flp M B)⌋).toNat = (flp M B).1 / 2 ^ (52 - (flp M B).2).toNat := by
  have hpowB : ((2 ^ (52 - eexpF M B).toNat : ℕ) : ℚ) = (2 : ℚ) ^ ((52 : ℤ) - eexpF M B) := by
    rw [Nat.cast_pow, Nat.cast_ofNat, ← zpow_natCast (2 : ℚ), Int.toNat_of_nonneg (by omega)]
  have hval : valF (flp M B) = ((flp M B).1 : ℚ) / ((2 ^ (52 - eexpF M B).toNat : ℕ) : ℚ) := by
    rw [valF_div, flp_snd, hpowB]
  rw [hval, floor_natCast_div _ _ (pow_ne_zero _ (by norm_num)), Int.toNat_natCast, flp_snd]

theorem progresso_eq_floor (k t : ℕ) (hk : 1 ≤ k) (hkt : k ≤ t) :
    progresso k t
      = (⌊valF (flp (100 * (flp k t).1) (2 ^ (52 - (flp k t).2).toNat))⌋).toNat := by
  obtain ⟨hM1, hB1, hfrac, he2⟩ := prog2_facts k t hk hkt
  rw [flp_floor_div _ _ he2]
  simp only [progresso]

theorem progresso_mono (k t k' t' : ℕ) (hk : 1 ≤ k) (hkt : k ≤ t) (hk' : 1 ≤ k')
    (hkt' : k' ≤ t') (h : (k : ℚ) / t ≤ (k' : ℚ) / t') :
    progresso k t ≤ progresso k' t' := by
  have ht : 1 ≤ t := le_trans hk hkt
  have ht' : 1 ≤ t' := le_trans hk' hkt'
  obtain ⟨hM1, hB1, hfrac, he2⟩ := prog2_facts k t hk hkt
  obtain ⟨hM1', hB1', hfrac', he2'⟩ := prog2_facts k' t' hk' hkt'
  have hv1 : valF (flp k t) ≤ valF (flp k' t') :=
    flp_mono k t k' t' hk ht hk' ht'
      (by have := eexpF_nonpos k t hk ht hkt; omega)
      (by have := eexpF_nonpos k' t' hk' ht' hkt'; omega) h
  have hy : ((100 * (flp k t).1 : ℕ) : ℚ) / ((2 ^ (52 - (flp k t).2).toNat : ℕ) : ℚ)
      ≤ ((100 * (flp k' t').1 : ℕ) : ℚ) / ((2 ^ (52 - (flp k' t').2).toNat : ℕ) : ℚ) := by
    rw [hfrac, hfrac']
    linarith
  have hv2 := flp_mono (100 * (flp k t).1) (2 ^ (52 - (flp k t).2).toNat)
    (100 * (flp k' t').1) (2 ^ (52 - (flp k' t').2).toNat) hM1 hB1 hM1' hB1' he2 he2' hy
  rw [progresso_eq_floor k t hk hkt, progresso_eq_floor k' t' hk' hkt']
  exact Int.toNat_le_toNat (Int.floor_le_floor hv2)

theorem progresso_total (t : ℕ) (ht : 1 ≤ t) : progresso t t = 100 := by
  have h := flp_self t ht
  simp only [progresso, h]
  decide

theorem progresso_le_99 (k t : ℕ) (hk : 1 ≤ k) (hlt : k < t) (ht53 : t ≤ 2 ^ 53) :
    progresso k t ≤ 99 := by
  have ht0 : (0 : ℚ) < t := by
    have h1 : 1 ≤ t := by omega
    exact_mod_cast h1
  have hB0 : (0 : ℚ) < ((2 ^ 53 : ℕ) : ℚ) := by positivity
  have hfracN : k * 2 ^ 53 ≤ (2 ^ 53 - 1) * t := by omega
  have hfrac : (k : ℚ) / t ≤ ((2 ^ 53 - 1 : ℕ) : ℚ) / ((2 ^ 53 : ℕ) : ℚ) := by
    rw [div_le_div_iff₀ ht0 hB0]
    exact_mod_cast hfracN
  have hmono := progresso_mono k t (2 ^ 53 - 1) (2 ^ 53) hk (by omega)
    (by norm_num) (by norm_num) hfrac
  have hval : progresso (2 ^ 53 - 1) (2 ^ 53) = 99 := by decide
  omega

/- ---------------------------------------------------------------------
The filesystem/deck effects of one loop iteration, separated from the
GUI messages: `processarUm` factors through `stepCore` on this projection.
--------------------------------------------------------------------- -/

/-- The non-message part of the loop state. -/
structure Core where
  contador : ℕ
  contentSlides : ℕ
  placements : List Placement
  movidas : List Nome
deriving DecidableEq

/-- Projection of the loop state onto its non-message part. -/
def LoopState.core (st : LoopState) : Core :=
  ⟨st.contador, st.contentSlides, st.placements, st.movidas⟩

/-- Effect of one candidate on the deck, the counter and the moved files. -/
def stepCore (cfg : Config) (env : Env) (nome : Nome) (c : Core) : Core :=
  if env.pilOk nome = false then c
  else if (verificar_desfocagem cfg.limiar_desfocagem (env.cvDecode nome)).2 then c
  else if cfg.layout_por_slide = 0 then c
  else
    match cfg.posicoes.get? (c.contador % cfg.layout_por_slide) with
    | none =>
      { c with contentSlides :=
          if c.contador % cfg.layout_por_slide = 0 then c.contentSlides + 1
          else c.contentSlides }
    | some p =>
      { contador := c.contador + 1,
        contentSlides :=
          if c.contador % cfg.layout_por_slide = 0 then c.contentSlides + 1
          else c.contentSlides,
        placements := c.placements ++
          [Placement.mk nome (c.contador / cfg.layout_por_slide)
            (c.contador % cfg.layout_por_slide) p],
        movidas := if env.moveOk nome then c.movidas ++ [nome] else c.movidas }

/-- A candidate is validated and detector-readable: these are exactly the
files the loop places (and then tries to move). -/
def placedOk (env : Env) (nome : Nome) : Bool :=
  env.pilOk nome && (env.cvDecode nome).isSome

theorem verificar_snd (limiar : ℚ) (d : Option ℚ) :
    (verificar_desfocagem limiar d).2 = d.isNone := by
  cases d <;> rfl

theorem processarUm_core (cfg : Config) (env : Env) (total i : ℕ) (nome : Nome)
    (st : LoopState) :
    (processarUm cfg env total i nome st).core = stepCore cfg env nome st.core := by
  simp only [processarUm, stepCore, LoopState.core]
  rcases hpos : cfg.posicoes.get? (st.contador % cfg.layout_por_slide) with _ | p <;>
    split_ifs <;> simp [hpos]

/-- The messages one candidate pushes, as a function of the counter value
at which it is processed. -/
def msgsUm (cfg : Config) (env : Env) (total i : ℕ) (nome : Nome) (c : ℕ) : List Msg :=
  [Msg.progresso (progresso (i + 1) total), Msg.processando (i + 1) total nome] ++
  (if env.pilOk nome = false then [Msg.erroCorrompido nome]
   else if (verificar_desfocagem cfg.limiar_desfocagem (env.cvDecode nome)).2 then []
   else if cfg.layout_por_slide = 0 then [Msg.erroInesperado nome]
   else match cfg.posicoes.get? (c % cfg.layout_por_slide) with
     | none => [Msg.erroInesperado nome]
     | some _ => if env.moveOk nome then [] else [Msg.erroInesperado nome])

theorem processarUm_sink (cfg : Config) (env : Env) (total i : ℕ) (nome : Nome)
    (st : LoopState) :
    (processarUm cfg env total i nome st).sink
      = st.sink ++ msgsUm cfg env total i nome st.contador := by
  simp only [processarUm, msgsUm]
  rcases hpos : cfg.posicoes.get? (st.contador % cfg.layout_por_slide) with _ | p <;>
    split_ifs <;> simp [hpos]

/-- Iterated `stepCore` (the loop's effect on the non-message state). -/
def loopCore (cfg : Config) (env : Env) (l : List Nome) (c : Core) : Core :=
  l.foldl (fun c nome => stepCore cfg env nome c) c

/-- The messages the loop pushes from a given start index and counter. -/
def msgsLoop (cfg : Config) (env : Env) (total : ℕ) :
    List Nome → ℕ → Core → List Msg
  | [], _, _ => []
  | nome :: resto, i, c =>
    msgsUm cfg env total i nome c.contador ++
      msgsLoop cfg env total resto (i + 1) (stepCore cfg env nome c)

theorem loopImagens_core (cfg : Config) (env : Env) (total : ℕ) :
    ∀ (l : List Nome) (i : ℕ) (st : LoopState),
      (loopImagens cfg env total l i st).core = loopCore cfg env l st.core := by
  intro l
  induction l with
  | nil => intro i st; rfl
  | cons nome resto ih =>
    intro i st
    simp only [loopImagens, loopCore, List.foldl]
    rw [ih, processarUm_core]
    rfl

theorem loopImagens_sink (cfg : Config) (env : Env) (total : ℕ) :
    ∀ (l : List Nome) (i : ℕ) (st : LoopState),
      (loopImagens cfg env total l i st).sink
        = st.sink ++ msgsLoop cfg env total l i st.core := by
  intro l
  induction l with
  | nil => intro i st; simp [loopImagens, msgsLoop]
  | cons nome resto ih =>
    intro i st
    simp only [loopImagens, msgsLoop]
    rw [ih, processarUm_sink, processarUm_core, List.append_assoc]
    rfl

theorem stepCore_skip (cfg : Config) (env : Env) (nome : Nome) (c : Core)
    (h : placedOk env nome = false) : stepCore cfg env nome c = c := by
  unfold stepCore
  rcases hpil : env.pilOk nome with _ | _
  · simp [hpil]
  · rcases henv : env.cvDecode nome with _ | v
    · simp [hpil, verificar_snd, henv]
    · exfalso
      unfold placedOk at h
      rw [hpil, henv] at h
      simp at h

theorem stepCore_place (cfg : Config) (env : Env) (nome : Nome) (c : Core)
    (h : placedOk env nome = true) (hN : cfg.layout_por_slide ≠ 0)
    (hpos : cfg.layout_por_slide ≤ cfg.posicoes.length) :
    stepCore cfg env nome c =
      { contador := c.contador + 1,
        contentSlides :=
          if c.contador % cfg.layout_por_slide = 0 then c.contentSlides + 1
          else c.contentSlides,
        placements := c.placements ++
          [Placement.mk nome (c.contador / cfg.layout_por_slide)
            (c.contador % cfg.layout_por_slide)
            (cfg.posicoes.getD (c.contador % cfg.layout_por_slide) ⟨0, 0⟩)],
        movidas := if env.moveOk nome then c.movidas ++ [nome] else c.movidas } := by
  have hpil : env.pilOk nome = true := by
    unfold placedOk at h
    exact (Bool.and_eq_true _ _ |>.mp h).1
  have hsome : (env.cvDecode nome).isSome = true := by
    unfold placedOk at h
    exact (Bool.and_eq_true _ _ |>.mp h).2
  obtain ⟨v, hv⟩ := Option.isSome_iff_exists.mp hsome
  have hlt : c.contador % cfg.layout_por_slide < cfg.posicoes.length :=
    lt_of_lt_of_le (Nat.mod_lt _ (Nat.pos_of_ne_zero hN)) hpos
  have hget : cfg.posicoes.get? (c.contador % cfg.layout_por_slide)
      = some (cfg.posicoes.getD (c.contador % cfg.layout_por_slide) ⟨0, 0⟩) := by
    rw [List.getD_eq_getElem _ _ hlt]
    exact List.get?_eq_get hlt
  unfold stepCore
  rw [hget]
  simp [hpil, verificar_snd, hv, hN]

theorem stepCore_movidas_sub (cfg : Config) (env : Env) (nome : Nome) (c : Core) (x : Nome)
    (hx : x ∈ (stepCore cfg env nome c).movidas) :
    x ∈ c.movidas ∨ (x = nome ∧ placedOk env nome = true) := by
  unfold stepCore at hx
  split_ifs at hx with h1 h2 h3 <;> try exact Or.inl hx
  all_goals (
    have hpil : env.pilOk nome = true := by
      revert h1
      cases env.pilOk nome <;> simp
    have hsome : (env.cvDecode nome).isSome = true := by
      rw [verificar_snd] at h2
      revert h2
      cases env.cvDecode nome <;> simp
    have hplaced : placedOk env nome = true := by
      unfold placedOk
      rw [hpil, hsome]
      rfl
    rcases hpos : cfg.posicoes.get? (c.contador % cfg.layout_por_slide) with _ | p <;>
      rw [hpos] at hx <;>
      try simp only [List.mem_append, List.mem_singleton] at hx
    all_goals first
      | exact Or.inl hx
      | exact hx.elim Or.inl (fun hr => Or.inr ⟨hr, hplaced⟩))

theorem stepCore_placements_sub (cfg : Config) (env : Env) (nome : Nome) (c : Core)
    (pl : Placement) (hx : pl ∈ (stepCore cfg env nome c).placements) :
    pl ∈ c.placements ∨ (pl.nome = nome ∧ placedOk env nome = true) := by
  unfold stepCore at hx
  split_ifs at hx with h1 h2 h3 <;> try exact Or.inl hx
  all_goals (
    have hpil : env.pilOk nome = true := by
      revert h1
      cases env.pilOk nome <;> simp
    have hsome : (env.cvDecode nome).isSome = true := by
      rw [verificar_snd] at h2
      revert h2
      cases env.cvDecode nome <;> simp
    have hplaced : placedOk env nome = true := by
      unfold placedOk
      rw [hpil, hsome]
      rfl
    rcases hpos : cfg.posicoes.get? (c.contador % cfg.layout_por_slide) with _ | p <;>
      rw [hpos] at hx <;>
      try simp only [List.mem_append, List.mem_singleton] at hx
    all_goals first
      | exact Or.inl hx
      | exact hx.elim Or.inl (fun hr => Or.inr ⟨by rw [hr], hplaced⟩))

theorem loopCore_movidas_sub (cfg : Config) (env : Env) :
    ∀ (l : List Nome) (c : Core) (x : Nome), x ∈ (loopCore cfg env l c).movidas →
      x ∈ c.movidas ∨ (x ∈ l ∧ placedOk env x = true) := by
  intro l
  induction l with
  | nil => intro c x hx; exact Or.inl hx
  | cons nome resto ih =>
    intro c x hx
    rcases ih (stepCore cfg env nome c) x hx with h | h
    · rcases stepCore_movidas_sub cfg env nome c x h with h' | h'
      · exact Or.inl h'
      · exact Or.inr ⟨by rw [h'.1]; exact List.mem_cons_self _ _, h'.1 ▸ h'.2⟩
    · exact Or.inr ⟨List.mem_cons_of_mem _ h.1, h.2⟩

theorem loopCore_placements_sub (cfg : Config) (env : Env) :
    ∀ (l : List Nome) (c : Core) (pl : Placement), pl ∈ (loopCore cfg env l c).placements →
      pl ∈ c.placements ∨ (pl.nome ∈ l ∧ placedOk env pl.nome = true) := by
  intro l
  induction l with
  | nil => intro c pl hx; exact Or.inl hx
  | cons nome resto ih =>
    intro c pl hx
    rcases ih (stepCore cfg env nome c) pl hx with h | h
    · rcases stepCore_placements_sub cfg env nome c pl h with h' | h'
      · exact Or.inl h'
      · exact Or.inr ⟨by rw [h'.1]; exact List.mem_cons_self _ _, h'.1 ▸ h'.2⟩
    · exact Or.inr ⟨List.mem_cons_of_mem _ h.1, h.2⟩

theorem ceil_step (y N : ℕ) (hN : N ≠ 0) :
    (y + 1 + N - 1) / N = (y + N - 1) / N + if y % N = 0 then 1 else 0 := by
  have h1 : y + 1 + N - 1 = (y + N - 1) + 1 := by omega
  rw [h1, Nat.succ_div]
  have h2 : y + N - 1 + 1 = y + N := by omega
  rw [h2]
  by_cases hd : y % N = 0
  · have hdvd : N ∣ y + N := Nat.dvd_add_self_right.mpr (Nat.dvd_of_mod_eq_zero hd)
    simp [hdvd, hd]
  · have hndvd : ¬ N ∣ y + N := by
      intro hdvd
      exact hd (Nat.mod_eq_zero_of_dvd (Nat.dvd_add_self_right.mp hdvd))
    simp [hndvd, hd]

/-- The layout engine's placements for a run of validated names starting at
counter value `c0`: the `j`-th gets slot `(c0+j) mod N` on content slide
`(c0+j) div N`. -/
def colocadasFrom (cfg : Config) : ℕ → List Nome → List Placement
  | _, [] => []
  | c0, nome :: resto =>
    Placement.mk nome (c0 / cfg.layout_por_slide) (c0 % cfg.layout_por_slide)
      (cfg.posicoes.getD (c0 % cfg.layout_por_slide) ⟨0, 0⟩) ::
    colocadasFrom cfg (c0 + 1) resto

theorem colocadasFrom_map_nome (cfg : Config) :
    ∀ (names : List Nome) (c0 : ℕ),
      (colocadasFrom cfg c0 names).map Placement.nome = names := by
  intro names
  induction names with
  | nil => intro c0; rfl
  | cons nome resto ih =>
    intro c0
    simp [colocadasFrom, ih]

theorem colocadasFrom_get? (cfg : Config) :
    ∀ (names : List Nome) (c0 j : ℕ) (pl : Placement),
      (colocadasFrom cfg c0 names).get? j = some pl →
      pl.slotIdx = (c0 + j) % cfg.layout_por_slide
      ∧ pl.slideIdx = (c0 + j) / cfg.layout_por_slide := by
  intro names
  induction names with
  | nil =>
    intro c0 j pl h
    simp [colocadasFrom] at h
  | cons nome resto ih =>
    intro c0 j pl h
    rcases j with _ | j
    · simp [colocadasFrom] at h
      rw [← h]
      exact ⟨rfl, rfl⟩
    · have h' : (colocadasFrom cfg (c0 + 1) resto).get? j = some pl := by
        simpa [colocadasFrom] using h
      have := ih (c0 + 1) j pl h'
      constructor
      · rw [this.1]
        congr 1
        omega
      · rw [this.2]
        congr 1
        omega

theorem loopCore_char (cfg : Config) (env : Env) (hN : cfg.layout_por_slide ≠ 0)
    (hpos : cfg.layout_por_slide ≤ cfg.posicoes.length) :
    ∀ (l : List Nome) (c : Core),
      (loopCore cfg env l c).contador = c.contador + (l.filter (placedOk env)).length
      ∧ (loopCore cfg env l c).placements
          = c.placements ++ colocadasFrom cfg c.contador (l.filter (placedOk env))
      ∧ (loopCore cfg env l c).movidas
          = c.movidas ++ l.filter (fun x => placedOk env x && env.moveOk x)
      ∧ (c.contentSlides = (c.contador + cfg.layout_por_slide - 1) / cfg.layout_por_slide →
          (loopCore cfg env l c).contentSlides
            = ((loopCore cfg env l c).contador + cfg.layout_por_slide - 1)
                / cfg.layout_por_slide) := by
  intro l
  induction l with
  | nil =>
    intro c
    refine ⟨by simp [loopCore], by simp [loopCore, colocadasFrom], by simp [loopCore], ?_⟩
    intro h
    simpa [loopCore] using h
  | cons nome resto ih =>
    intro c
    have hstep : loopCore cfg env (nome :: resto) c
        = loopCore cfg env resto (stepCore cfg env nome c) := by
      simp [loopCore, List.foldl]
    rcases hpl : placedOk env nome with _ | _
    · -- skipped candidate: nothing changes
      have hskip := stepCore_skip cfg env nome c hpl
      have hfil : (nome :: resto).filter (placedOk env) = resto.filter (placedOk env) := by
        simp [List.filter_cons, hpl]
      have hfil2 : (nome :: resto).filter (fun x => placedOk env x && env.moveOk x)
          = resto.filter (fun x => placedOk env x && env.moveOk x) := by
        simp [List.filter_cons, hpl]
      rw [hstep, hskip, hfil, hfil2]
      exact ih c
    · -- placed candidate
      have hplace := stepCore_place cfg env nome c hpl hN hpos
      have hfil : (nome :: resto).filter (placedOk env)
          = nome :: resto.filter (placedOk env) := by
        simp [List.filter_cons, hpl]
      have hfil2 : (nome :: resto).filter (fun x => placedOk env x && env.moveOk x)
          = if env.moveOk nome then nome :: resto.filter (fun x => placedOk env x && env.moveOk x)
            else resto.filter (fun x => placedOk env x && env.moveOk x) := by
        by_cases hmv : env.moveOk nome = true
        · simp [List.filter_cons, hpl, hmv]
        · simp [List.filter_cons, hpl, Bool.eq_false_iff.mpr hmv]
      obtain ⟨ihA, ihB, ihC, ihD⟩ := ih (stepCore cfg env nome c)
      rw [hstep, hfil, hfil2]
      refine ⟨?_, ?_, ?_, ?_⟩
      · rw [ihA, hplace]
        simp
        omega
      · rw [ihB, hplace]
        simp only [colocadasFrom, List.length_cons]
        rw [List.append_assoc]
        rfl
      · rw [ihC, hplace]
        by_cases hmv : env.moveOk nome = true
        · simp only [hmv, if_true, List.append_assoc]
          rfl
        · simp only [hmv, if_false, Bool.false_eq_true]
      · intro hinv
        have hinv' : (stepCore cfg env nome c).contentSlides
            = ((stepCore cfg env nome c).contador + cfg.layout_por_slide - 1)
                / cfg.layout_por_slide := by
          rw [hplace]
          simp only
          rw [ceil_step c.contador cfg.layout_por_slide hN, ← hinv]
          by_cases hz : c.contador % cfg.layout_por_slide = 0
          · simp [hz]
          · simp [hz]
        exact ihD hinv'

theorem valoresProgresso_append (a b : List Msg) :
    valoresProgresso (a ++ b) = valoresProgresso a ++ valoresProgresso b :=
  List.filterMap_append _ _ _

theorem valoresProgresso_msgsUm (cfg : Config) (env : Env) (total i : ℕ) (nome : Nome)
    (c : ℕ) : valoresProgresso (msgsUm cfg env total i nome c) = [progresso (i + 1) total] := by
  unfold msgsUm valoresProgresso
  rw [List.filterMap_append]
  rcases hps : cfg.posicoes.get? (c % cfg.layout_por_slide) with _ | p <;>
    split_ifs <;> simp [hps]

theorem valoresProgresso_msgsLoop (cfg : Config) (env : Env) (total : ℕ) :
    ∀ (l : List Nome) (i : ℕ) (c : Core),
      valoresProgresso (msgsLoop cfg env total l i c)
        = (List.range' (i + 1) l.length).map (fun k => progresso k total) := by
  intro l
  induction l with
  | nil => intro i c; rfl
  | cons nome resto ih =>
    intro i c
    simp only [msgsLoop, valoresProgresso_append, valoresProgresso_msgsUm, ih,
      List.length_cons, List.range'_succ, List.map_cons]
    rfl

theorem erroCorrompido_msgsUm (cfg : Config) (env : Env) (total i : ℕ) (nome : Nome)
    (c : ℕ) (x : Nome) :
    Msg.erroCorrompido x ∈ msgsUm cfg env total i nome c
      ↔ (x = nome ∧ env.pilOk nome = false) := by
  unfold msgsUm
  rcases hpil : env.pilOk nome with _ | _
  · simp [hpil]
  · rcases hcv : env.cvDecode nome with _ | v
    · simp [hpil, verificar_snd, hcv]
    · by_cases hz : cfg.layout_por_slide = 0
      · simp [hpil, verificar_snd, hcv, hz]
      · rcases hps : cfg.posicoes.get? (c % cfg.layout_por_slide) with _ | p
        · simp [hpil, verificar_snd, hcv, hz, hps]
        · by_cases hmv : env.moveOk nome = true
          · simp [hpil, verificar_snd, hcv, hz, hps, hmv]
          · simp [hpil, verificar_snd, hcv, hz, hps, hmv]

theorem erroInesperado_msgsUm_sub (cfg : Config) (env : Env) (total i : ℕ) (nome : Nome)
    (c : ℕ) (x : Nome) (h : Msg.erroInesperado x ∈ msgsUm cfg env total i nome c) :
    x = nome ∧ env.pilOk nome = true ∧ (env.cvDecode nome).isSome = true := by
  unfold msgsUm at h
  rcases hpil : env.pilOk nome with _ | _
  · rw [hpil] at h
    simp at h
  · rcases hcv : env.cvDecode nome with _ | v
    · rw [hpil, hcv] at h
      simp [verificar_snd] at h
    · rw [hpil, hcv] at h
      by_cases hz : cfg.layout_por_slide = 0
      · rw [if_pos hz] at h
        simp [verificar_snd] at h
        exact ⟨h, rfl, rfl⟩
      · rw [if_neg hz] at h
        rcases hps : cfg.posicoes.get? (c % cfg.layout_por_slide) with _ | p
        · rw [hps] at h
          simp [verificar_snd] at h
          exact ⟨h, rfl, rfl⟩
        · rw [hps] at h
          by_cases hmv : env.moveOk nome = true
          · rw [if_pos hmv] at h
            simp [verificar_snd] at h
          · rw [if_neg hmv] at h
            simp [verificar_snd] at h
            exact ⟨h, rfl, rfl⟩

theorem erroInesperado_msgsUm_move (cfg : Config) (env : Env) (total i : ℕ) (nome : Nome)
    (c : ℕ) (hpl : placedOk env nome = true) (hN : cfg.layout_por_slide ≠ 0)
    (hpos : cfg.layout_por_slide ≤ cfg.posicoes.length) (hmv : env.moveOk nome = false) :
    Msg.erroInesperado nome ∈ msgsUm cfg env total i nome c := by
  have hpil : env.pilOk nome = true := by
    unfold placedOk at hpl
    exact (Bool.and_eq_true _ _ |>.mp hpl).1
  have hsome : (env.cvDecode nome).isSome = true := by
    unfold placedOk at hpl
    exact (Bool.and_eq_true _ _ |>.mp hpl).2
  obtain ⟨v, hv⟩ := Option.isSome_iff_exists.mp hsome
  have hlt : c % cfg.layout_por_slide < cfg.posicoes.length :=
    lt_of_lt_of_le (Nat.mod_lt _ (Nat.pos_of_ne_zero hN)) hpos
  have hget : cfg.posicoes.get? (c % cfg.layout_por_slide)
      = some (cfg.posicoes.getD (c % cfg.layout_por_slide) ⟨0, 0⟩) := by
    rw [List.getD_eq_getElem _ _ hlt]
    exact List.get?_eq_get hlt
  unfold msgsUm
  rw [hpil, hv, hget]
  simp [verificar_snd, hN, hmv]

theorem erroCorrompido_msgsLoop (cfg : Config) (env : Env) (total : ℕ) :
    ∀ (l : List Nome) (i : ℕ) (c : Core) (x : Nome),
      Msg.erroCorrompido x ∈ msgsLoop cfg env total l i c
        ↔ (x ∈ l ∧ env.pilOk x = false) := by
  intro l
  induction l with
  | nil =>
    intro i c x
    simp [msgsLoop]
  | cons nome resto ih =>
    intro i c x
    simp only [msgsLoop, List.mem_append, erroCorrompido_msgsUm, ih]
    constructor
    · rintro (⟨rfl, h⟩ | ⟨hmem, h⟩)
      · exact ⟨List.mem_cons_self _ _, h⟩
      · exact ⟨List.mem_cons_of_mem _ hmem, h⟩
    · rintro ⟨hmem, h⟩
      rcases List.mem_cons.mp hmem with rfl | hmem'
      · exact Or.inl ⟨rfl, h⟩
      · exact Or.inr ⟨hmem', h⟩

theorem erroInesperado_msgsLoop_sub (cfg : Config) (env : Env) (total : ℕ) :
    ∀ (l : List Nome) (i : ℕ) (c : Core) (x : Nome),
      Msg.erroInesperado x ∈ msgsLoop cfg env total l i c →
      x ∈ l ∧ env.pilOk x = true ∧ (env.cvDecode x).isSome = true := by
  intro l
  induction l with
  | nil =>
    intro i c x h
    simp [msgsLoop] at h
  | cons nome resto ih =>
    intro i c x h
    rcases List.mem_append.mp h with hl | hr
    · obtain ⟨rfl, h2, h3⟩ := erroInesperado_msgsUm_sub cfg env total i nome c.contador x hl
      exact ⟨List.mem_cons_self _ _, h2, h3⟩
    · obtain ⟨h1, h2, h3⟩ := ih (i + 1) (stepCore cfg env nome c) x hr
      exact ⟨List.mem_cons_of_mem _ h1, h2, h3⟩

theorem erroInesperado_msgsLoop_move (cfg : Config) (env : Env) (total : ℕ)
    (hN : cfg.layout_por_slide ≠ 0) (hpos : cfg.layout_por_slide ≤ cfg.posicoes.length) :
    ∀ (l : List Nome) (i : ℕ) (c : Core) (x : Nome), x ∈ l →
      placedOk env x = true → env.moveOk x = false →
      Msg.erroInesperado x ∈ msgsLoop cfg env total l i c := by
  intro l
  induction l with
  | nil =>
    intro i c x hx
    simp at hx
  | cons nome resto ih =>
    intro i c x hx hpl hmv
    rcases List.mem_cons.mp hx with rfl | hx'
    · exact List.mem_append.mpr
        (Or.inl (erroInesperado_msgsUm_move cfg env total i x c.contador hpl hN hpos hmv))
    · exact List.mem_append.mpr
        (Or.inr (ih (i + 1) (stepCore cfg env nome c) x hx' hpl hmv))

/- ---------------------------------------------------------------------
Branch lemmas for the whole run, and concrete configurations and
environments used to instantiate the claims.
--------------------------------------------------------------------- -/

theorem processar_imagens_origem (cfg : Config) (env : Env)
    (h : env.sourceExists = false) :
    processar_imagens cfg env =
      { eventos := [.criaPastaDestino, .criaPastaProcessadas, .verificaPastaOrigem],
        pastaDestinoCriada := true, pastaProcessadasCriada := true,
        headerSlide := false, sink := [Msg.erroPastaOrigem],
        contentSlides := 0, placements := [], movidas := [], guardado := false } := by
  simp [processar_imagens, h]

theorem processar_imagens_template (cfg : Config) (env : Env)
    (h1 : env.sourceExists = true) (h2 : env.templateExists = false) :
    processar_imagens cfg env =
      { eventos := [.criaPastaDestino, .criaPastaProcessadas, .verificaPastaOrigem,
          .verificaTemplate],
        pastaDestinoCriada := true, pastaProcessadasCriada := true,
        headerSlide := false, sink := [Msg.erroTemplate],
        contentSlides := 0, placements := [], movidas := [], guardado := false } := by
  simp [processar_imagens, h1, h2]

theorem processar_imagens_semImagens (cfg : Config) (env : Env)
    (h1 : env.sourceExists = true) (h2 : env.templateExists = true)
    (h3 : env.listing.filter isImagem = []) :
    processar_imagens cfg env =
      { eventos := [.criaPastaDestino, .criaPastaProcessadas, .verificaPastaOrigem,
          .verificaTemplate],
        pastaDestinoCriada := true, pastaProcessadasCriada := true,
        headerSlide := true, sink := [Msg.nenhumaImagem],
        contentSlides := 0, placements := [], movidas := [], guardado := false } := by
  simp [processar_imagens, h1, h2, imagensEncontradas, h3, List.insertionSort]

theorem imagensEncontradas_ne_nil (listing : List Nome)
    (hne : listing.filter isImagem ≠ []) : imagensEncontradas listing ≠ [] := by
  intro h
  apply hne
  have hperm := List.perm_insertionSort (α := Nome) (· ≤ ·) (listing.filter isImagem)
  rw [imagensEncontradas] at h
  rw [h] at hperm
  exact hperm.symm.eq_nil

theorem processar_imagens_sucesso (cfg : Config) (env : Env)
    (h1 : env.sourceExists = true) (h2 : env.templateExists = true)
    (hne : env.listing.filter isImagem ≠ []) :
    processar_imagens cfg env =
      { eventos := [.criaPastaDestino, .criaPastaProcessadas, .verificaPastaOrigem,
          .verificaTemplate],
        pastaDestinoCriada := true, pastaProcessadasCriada := true,
        headerSlide := true,
        sink := (loopImagens cfg env (imagensEncontradas env.listing).length
            (imagensEncontradas env.listing) 0 ⟨0, 0, [], [], []⟩).sink
          ++ [Msg.separador, Msg.concluido, Msg.salvoEm, Msg.finalizado],
        contentSlides := (loopImagens cfg env (imagensEncontradas env.listing).length
            (imagensEncontradas env.listing) 0 ⟨0, 0, [], [], []⟩).contentSlides,
        placements := (loopImagens cfg env (imagensEncontradas env.listing).length
            (imagensEncontradas env.listing) 0 ⟨0, 0, [], [], []⟩).placements,
        movidas := (loopImagens cfg env (imagensEncontradas env.listing).length
            (imagensEncontradas env.listing) 0 ⟨0, 0, [], [], []⟩).movidas,
        guardado := true } := by
  have hne' := imagensEncontradas_ne_nil env.listing hne
  have hemp : (imagensEncontradas env.listing).isEmpty = false := by
    rcases hemp' : (imagensEncontradas env.listing).isEmpty with _ | _
    · rfl
    · exact absurd (List.isEmpty_iff.mp hemp') hne'
  simp [processar_imagens, h1, h2, hemp]

theorem mem_imagensEncontradas (listing : List Nome) (f : Nome) :
    f ∈ imagensEncontradas listing ↔ (f ∈ listing ∧ isImagem f = true) := by
  rw [imagensEncontradas]
  rw [(List.perm_insertionSort (α := Nome) (· ≤ ·) (listing.filter isImagem)).mem_iff]
  exact List.mem_filter

theorem imagensEncontradas_sorted (listing : List Nome) :
    (imagensEncontradas listing).Sorted (· ≤ ·) :=
  List.sorted_insertionSort _ _

theorem imagensEncontradas_nodup (listing : List Nome) (h : listing.Nodup) :
    (imagensEncontradas listing).Nodup :=
  ((List.perm_insertionSort (α := Nome) (· ≤ ·) (listing.filter isImagem)).nodup_iff).mpr
    (h.filter _)

theorem loopInit_core (cfg : Config) (env : Env) (total : ℕ) (l : List Nome) :
    (loopImagens cfg env total l 0 ⟨0, 0, [], [], []⟩).core
      = loopCore cfg env l ⟨0, 0, [], []⟩ :=
  loopImagens_core cfg env total l 0 ⟨0, 0, [], [], []⟩

theorem loopInit_sink (cfg : Config) (env : Env) (total : ℕ) (l : List Nome) :
    (loopImagens cfg env total l 0 ⟨0, 0, [], [], []⟩).sink
      = msgsLoop cfg env total l 0 ⟨0, 0, [], []⟩ :=
  loopImagens_sink cfg env total l 0 ⟨0, 0, [], [], []⟩

/-- Concrete configuration: blur threshold 100, 8cm × 6cm pictures, two
pictures per slide, two slot positions. -/
def cfgA : Config :=
  { limiar_desfocagem := 100, largura_cm := 8, altura_cm := 6,
    layout_por_slide := 2, posicoes := [⟨1, 2⟩, ⟨13, 2⟩] }

/-- Concrete misconfiguration: `layout_por_slide = 0`. -/
def cfgZero : Config :=
  { limiar_desfocagem := 100, largura_cm := 8, altura_cm := 6,
    layout_por_slide := 0, posicoes := [⟨1, 2⟩] }

/-- One candidate that fails `Image.open`/`verify` (structurally corrupt). -/
def envCorrompido : Env :=
  { listing := [codes "a.png"], sourceExists := true, templateExists := true,
    pilOk := fun _ => false, cvDecode := fun _ => some 500, moveOk := fun _ => true }

/-- The template file is missing. -/
def envTemplateFalta : Env :=
  { listing := [codes "a.png"], sourceExists := true, templateExists := false,
    pilOk := fun _ => true, cvDecode := fun _ => some 500, moveOk := fun _ => true }

/-- One candidate that `PIL` validates but `cv2.imread` cannot read. -/
def envLeituraFalha : Env :=
  { listing := [codes "a.png"], sourceExists := true, templateExists := true,
    pilOk := fun _ => true, cvDecode := fun _ => none, moveOk := fun _ => true }

/-- One perfectly fine candidate. -/
def envValido1 : Env :=
  { listing := [codes "a.png"], sourceExists := true, templateExists := true,
    pilOk := fun _ => true, cvDecode := fun _ => some 500, moveOk := fun _ => true }

/-- Same environment with a small (blur-range) Laplacian variance. -/
def envValido1Desfocada : Env :=
  { listing := [codes "a.png"], sourceExists := true, templateExists := true,
    pilOk := fun _ => true, cvDecode := fun _ => some 5, moveOk := fun _ => true }

/-- Three image files (one listed out of order) plus one non-image file. -/
def envTres : Env :=
  { listing := [codes "b.png", codes "a.jpg", codes "c.gif", codes "nota.txt"],
    sourceExists := true, templateExists := true,
    pilOk := fun _ => true, cvDecode := fun _ => some 500, moveOk := fun _ => true }

/-- Three candidates of which `b.png` is structurally corrupt. -/
def envMisto : Env :=
  { listing := [codes "a.png", codes "b.png", codes "c.png"],
    sourceExists := true, templateExists := true,
    pilOk := fun n => decide (n ≠ codes "b.png"),
    cvDecode := fun _ => some 500, moveOk := fun _ => true }

/-- Fifty candidates `img00.png` … `img49.png`, none of which validates
(progress is still emitted for every attempt). -/
def env50 : Env :=
  { listing := (List.range 50).map
      (fun j => codes "img" ++ [48 + j / 10, 48 + j % 10] ++ codes ".png"),
    sourceExists := true, templateExists := true,
    pilOk := fun _ => false, cvDecode := fun _ => none, moveOk := fun _ => true }

/- ---------------------------------------------------------------------
Claims.
--------------------------------------------------------------------- -/

/-- C10: on every run the destination and processed directories are created
(`os.makedirs(..., exist_ok=True)`, lines 107-108) before the source
directory and the template file are checked for existence (lines 110, 115),
so both directories exist afterwards even when the run aborts fatally: the
event trace of every run starts with the two creation events, and both
creation flags are set in every outcome, aborted or not. -/
theorem C10_pastas_criadas_antes (cfg : Config) (env : Env) :
    (processar_imagens cfg env).eventos.take 2
        = [Evento.criaPastaDestino, Evento.criaPastaProcessadas]
    ∧ (processar_imagens cfg env).pastaDestinoCriada = true
    ∧ (processar_imagens cfg env).pastaProcessadasCriada = true := by
  by_cases h1 : env.sourceExists = true
  · by_cases h2 : env.templateExists = true
    · by_cases h3 : env.listing.filter isImagem = []
      · rw [processar_imagens_semImagens cfg env h1 h2 h3]
        exact ⟨rfl, rfl, rfl⟩
      · rw [processar_imagens_sucesso cfg env h1 h2 h3]
        exact ⟨rfl, rfl, rfl⟩
    · have h2' : env.templateExists = false := by
        revert h2
        cases env.templateExists <;> simp
      rw [processar_imagens_template cfg env h1 h2']
      exact ⟨rfl, rfl, rfl⟩
  · have h1' : env.sourceExists = false := by
      revert h1
      cases env.sourceExists <;> simp
    rw [processar_imagens_origem cfg env h1']
    exact ⟨rfl, rfl, rfl⟩

/-- C6 counterexample: with the template file missing, the sink receives the
template-error message but the run returns (line 118) without pushing the
`FINALIZADO` sentinel, contradicting the claim that every early-terminating
run pushes the sentinel after the error message. -/
theorem C6_contraexemplo :
    (processar_imagens cfgA envTemplateFalta).sink = [Msg.erroTemplate]
    ∧ Msg.finalizado ∉ (processar_imagens cfgA envTemplateFalta).sink := by
  constructor
  · rfl
  · decide

/-- C6 as amended: on the three early-terminating paths (missing source
directory, missing template, no candidate images) the sink receives exactly
the corresponding error or informational message and nothing else — in
particular no `FINALIZADO` sentinel; the sentinel is pushed only when the
run reaches the save (or the critical handler, line 208). -/
theorem C6_abortos_sem_sentinela (cfg : Config) (env : Env) :
    (env.sourceExists = false →
      (processar_imagens cfg env).sink = [Msg.erroPastaOrigem]
      ∧ Msg.finalizado ∉ (processar_imagens cfg env).sink)
    ∧ (env.sourceExists = true → env.templateExists = false →
      (processar_imagens cfg env).sink = [Msg.erroTemplate]
      ∧ Msg.finalizado ∉ (processar_imagens cfg env).sink)
    ∧ (env.sourceExists = true → env.templateExists = true →
        env.listing.filter isImagem = [] →
      (processar_imagens cfg env).sink = [Msg.nenhumaImagem]
      ∧ Msg.finalizado ∉ (processar_imagens cfg env).sink)
    ∧ (env.sourceExists = true → env.templateExists = true →
        env.listing.filter isImagem ≠ [] →
      Msg.finalizado ∈ (processar_imagens cfg env).sink) := by
  refine ⟨?_, ?_, ?_, ?_⟩
  · intro h
    rw [processar_imagens_origem cfg env h]
    exact ⟨rfl, by decide⟩
  · intro h1 h2
    rw [processar_imagens_template cfg env h1 h2]
    exact ⟨rfl, by decide⟩
  · intro h1 h2 h3
    rw [processar_imagens_semImagens cfg env h1 h2 h3]
    exact ⟨rfl, by decide⟩
  · intro h1 h2 h3
    rw [processar_imagens_sucesso cfg env h1 h2 h3]
    simp

/-- C6 witness for the amended theorem, at the missing-template environment. -/
theorem C6_abortos_sem_sentinela_witness :
    envTemplateFalta.sourceExists = true ∧ envTemplateFalta.templateExists = false
    ∧ ((processar_imagens cfgA envTemplateFalta).sink = [Msg.erroTemplate]
      ∧ Msg.finalizado ∉ (processar_imagens cfgA envTemplateFalta).sink) :=
  ⟨rfl, rfl, (C6_abortos_sem_sentinela cfgA envTemplateFalta).2.1 rfl rfl⟩

/-- C8: the claim says a capacity of 0 must be rejected at
config-validation time, before any candidate is processed.  The code has no
such validation: with `layout_por_slide = 0` and one valid candidate the run
enters the per-file loop, the `contador % 0` of line 169 raises
`ZeroDivisionError` which the generic per-file handler of line 188 catches
(pushing the unexpected-error message), and the run then saves a deck with
the header slide only.  This evaluation at the failing input documents the
divergence. -/
theorem C8_capacidade_zero_atinge_o_loop :
    (processar_imagens cfgZero envValido1).guardado = true
    ∧ (processar_imagens cfgZero envValido1).contentSlides = 0
    ∧ (processar_imagens cfgZero envValido1).placements = []
    ∧ Msg.erroInesperado (codes "a.png") ∈ (processar_imagens cfgZero envValido1).sink
    ∧ Msg.progresso 100 ∈ (processar_imagens cfgZero envValido1).sink := by
  refine ⟨rfl, rfl, rfl, ?_, ?_⟩ <;> decide

/-- C2: a candidate whose structural validation fails (`Image.open/verify`,
line 161-162) or whose detector read fails (`verificar_desfocagem` returning
`erro_leitura`, lines 164-167) is never moved to the processed directory and
never has a picture inserted into the deck — in any run, under any
configuration. -/
theorem C2_falha_nem_movida_nem_colocada (cfg : Config) (env : Env) (f : Nome)
    (hbad : env.pilOk f = false ∨ env.cvDecode f = none) :
    f ∉ (processar_imagens cfg env).movidas
    ∧ ∀ pl ∈ (processar_imagens cfg env).placements, pl.nome ≠ f := by
  have hpl : placedOk env f = false := by
    unfold placedOk
    rcases hbad with h | h
    · rw [h]
      rfl
    · rw [h]
      simp
  by_cases h1 : env.sourceExists = true
  · by_cases h2 : env.templateExists = true
    · by_cases h3 : env.listing.filter isImagem = []
      · rw [processar_imagens_semImagens cfg env h1 h2 h3]
        exact ⟨by simp, by simp⟩
      · rw [processar_imagens_sucesso cfg env h1 h2 h3]
        constructor
        · intro hf
          have hf2 : f ∈ (loopCore cfg env (imagensEncontradas env.listing)
              ⟨0, 0, [], []⟩).movidas := by
            rw [← loopInit_core cfg env (imagensEncontradas env.listing).length]
            exact hf
          rcases loopCore_movidas_sub cfg env _ _ f hf2 with h | h
          · simp at h
          · simp [hpl] at h
        · intro pl hmem heq
          have hf2 : pl ∈ (loopCore cfg env (imagensEncontradas env.listing)
              ⟨0, 0, [], []⟩).placements := by
            rw [← loopInit_core cfg env (imagensEncontradas env.listing).length]
            exact hmem
          rcases loopCore_placements_sub cfg env _ _ pl hf2 with h | h
          · simp at h
          · rw [heq] at h
            simp [hpl] at h
    · have h2' : env.templateExists = false := by
        revert h2
        cases env.templateExists <;> simp
      rw [processar_imagens_template cfg env h1 h2']
      exact ⟨by simp, by simp⟩
  · have h1' : env.sourceExists = false := by
      revert h1
      cases env.sourceExists <;> simp
    rw [processar_imagens_origem cfg env h1']
    exact ⟨by simp, by simp⟩

/-- C2 witness: in `envMisto`, `b.png` fails validation and is neither moved
nor placed. -/
theorem C2_falha_nem_movida_nem_colocada_witness :
    envMisto.pilOk (codes "b.png") = false
    ∧ (codes "b.png" ∉ (processar_imagens cfgA envMisto).movidas
      ∧ ∀ pl ∈ (processar_imagens cfgA envMisto).placements, pl.nome ≠ codes "b.png") :=
  ⟨by decide,
   C2_falha_nem_movida_nem_colocada cfgA envMisto (codes "b.png") (Or.inl (by decide))⟩

/-- C9 counterexample: a candidate that `PIL` accepts but `cv2` cannot read
is skipped with a log entry only (line 166): the complete sink of the run
contains no status or error line describing the skip — only the progress
pair every attempt gets and the final success block — and the file is not
moved; this contradicts the claim that every skipped candidate produces a
sink line describing the skip. -/
theorem C9_contraexemplo :
    (processar_imagens cfgA envLeituraFalha).sink
      = [Msg.progresso 100, Msg.processando 1 1 (codes "a.png"),
         Msg.separador, Msg.concluido, Msg.salvoEm, Msg.finalizado]
    ∧ Msg.erroCorrompido (codes "a.png") ∉ (processar_imagens cfgA envLeituraFalha).sink
    ∧ Msg.erroInesperado (codes "a.png") ∉ (processar_imagens cfgA envLeituraFalha).sink
    ∧ (processar_imagens cfgA envLeituraFalha).movidas = [] := by
  refine ⟨by decide, by decide, by decide, by decide⟩

/-- C9 as amended: a candidate skipped because `Image.open`/`verify` raised
gets the corrupted-file error line on the sink (line 187), and a failure of
`shutil.move` after placement gets the unexpected-error line (line 190);
but a candidate skipped because the detector read failed is only written to
the log file (line 166) — no status or error line about it is ever pushed
to the sink. -/
theorem C9_saltos_no_sink (cfg : Config) (env : Env) (f : Nome)
    (hsrc : env.sourceExists = true) (htpl : env.templateExists = true)
    (hf : f ∈ env.listing) (himg : isImagem f = true) :
    (env.pilOk f = false →
      Msg.erroCorrompido f ∈ (processar_imagens cfg env).sink)
    ∧ (env.pilOk f = true → env.cvDecode f = none →
      Msg.erroCorrompido f ∉ (processar_imagens cfg env).sink
      ∧ Msg.erroInesperado f ∉ (processar_imagens cfg env).sink)
    ∧ (placedOk env f = true → env.moveOk f = false →
        cfg.layout_por_slide ≠ 0 → cfg.layout_por_slide ≤ cfg.posicoes.length →
      Msg.erroInesperado f ∈ (processar_imagens cfg env).sink) := by
  have hfil : env.listing.filter isImagem ≠ [] :=
    List.ne_nil_of_mem (List.mem_filter.mpr ⟨hf, himg⟩)
  have henc : f ∈ imagensEncontradas env.listing :=
    (mem_imagensEncontradas env.listing f).mpr ⟨hf, himg⟩
  rw [processar_imagens_sucesso cfg env hsrc htpl hfil]
  simp only [loopInit_sink]
  refine ⟨?_, ?_, ?_⟩
  · intro h
    exact List.mem_append.mpr (Or.inl
      ((erroCorrompido_msgsLoop cfg env _ _ 0 ⟨0, 0, [], []⟩ f).mpr ⟨henc, h⟩))
  · intro h1 h2
    constructor
    · intro hmem
      rcases List.mem_append.mp hmem with hl | hr
      · have := ((erroCorrompido_msgsLoop cfg env _ _ 0 ⟨0, 0, [], []⟩ f).mp hl).2
        rw [h1] at this
        simp at this
      · simp at hr
    · intro hmem
      rcases List.mem_append.mp hmem with hl | hr
      · have := (erroInesperado_msgsLoop_sub cfg env _ _ 0 ⟨0, 0, [], []⟩ f hl).2.2
        rw [h2] at this
        simp at this
      · simp at hr
  · intro h1 h2 h3 h4
    exact List.mem_append.mpr (Or.inl
      (erroInesperado_msgsLoop_move cfg env _ h3 h4 _ 0 ⟨0, 0, [], []⟩ f henc h1 h2))

/-- C9 witness for the amended theorem: the corrupt `b.png` of `envMisto`
gets its error line on the sink. -/
theorem C9_saltos_no_sink_witness :
    (codes "b.png" ∈ envMisto.listing ∧ isImagem (codes "b.png") = true
      ∧ envMisto.pilOk (codes "b.png") = false)
    ∧ Msg.erroCorrompido (codes "b.png") ∈ (processar_imagens cfgA envMisto).sink :=
  ⟨⟨by decide, by decide, by decide⟩,
   (C9_saltos_no_sink cfgA envMisto (codes "b.png") rfl rfl (by decide) (by decide)).1
     (by decide)⟩

/-- C5: for a decodable image, `verificar_desfocagem` classifies blurry iff
the Laplacian variance is strictly below the threshold and reports no read
error; a decode failure yields the distinct `(False, True)` read-error
outcome, not a blur verdict; and the verdict never influences placement or
moving: the per-file effect `stepCore` is unchanged under any change of the
decoded variance that keeps the image decodable.  (Determinism is
structural: the verdict is a pure function of the decoded value and the
threshold.) -/
theorem C5_desfocagem (limiar v : ℚ) (cfg : Config) (env env' : Env)
    (nome : Nome) (c : Core)
    (hag1 : env.pilOk nome = env'.pilOk nome)
    (hag2 : (env.cvDecode nome).isSome = (env'.cvDecode nome).isSome)
    (hag3 : env.moveOk nome = env'.moveOk nome) :
    ((verificar_desfocagem limiar (some v)).1 = true ↔ v < limiar)
    ∧ (verificar_desfocagem limiar (some v)).2 = false
    ∧ verificar_desfocagem limiar none = (false, true)
    ∧ stepCore cfg env nome c = stepCore cfg env' nome c := by
  refine ⟨?_, rfl, rfl, ?_⟩
  · simp [verificar_desfocagem]
  · have h2 : (verificar_desfocagem cfg.limiar_desfocagem (env.cvDecode nome)).2
        = (verificar_desfocagem cfg.limiar_desfocagem (env'.cvDecode nome)).2 := by
      rw [verificar_snd, verificar_snd]
      rcases henv : env.cvDecode nome with _ | a
      · rcases henv' : env'.cvDecode nome with _ | b
        · rfl
        · rw [henv, henv'] at hag2
          simp at hag2
      · rcases henv' : env'.cvDecode nome with _ | b
        · rw [henv, henv'] at hag2
          simp at hag2
        · rfl
    unfold stepCore
    rw [hag1, h2, hag3]

/-- C5 witness: a blur-range variance (5 < 100) versus a sharp one (500)
leaves the per-file effect identical. -/
theorem C5_desfocagem_witness :
    (envValido1.pilOk (codes "a.png") = envValido1Desfocada.pilOk (codes "a.png")
      ∧ (envValido1.cvDecode (codes "a.png")).isSome
          = (envValido1Desfocada.cvDecode (codes "a.png")).isSome)
    ∧ (((verificar_desfocagem 100 (some 5)).1 = true ↔ (5 : ℚ) < 100)
      ∧ (verificar_desfocagem 100 (some 5)).2 = false
      ∧ verificar_desfocagem 100 none = (false, true)
      ∧ stepCore cfgA envValido1 (codes "a.png") ⟨0, 0, [], []⟩
          = stepCore cfgA envValido1Desfocada (codes "a.png") ⟨0, 0, [], []⟩) :=
  ⟨⟨rfl, rfl⟩,
   C5_desfocagem 100 5 cfgA envValido1 envValido1Desfocada (codes "a.png")
     ⟨0, 0, [], []⟩ rfl rfl rfl⟩

/-- C1 counterexample: one structurally corrupt candidate means zero images
pass validation (`M = 0`), yet `prs.save` still runs — the deck is saved,
with the header slide and no content slide.  The claim's assertion that no
deck is saved at all when `M = 0` is therefore false: the save is skipped
only when there are no candidates at all (line 143-146). -/
theorem C1_contraexemplo :
    (processar_imagens cfgA envCorrompido).placements = []
    ∧ (processar_imagens cfgA envCorrompido).guardado = true
    ∧ (processar_imagens cfgA envCorrompido).contentSlides = 0 := by
  refine ⟨by decide, by decide, by decide⟩

/-- C1 as amended: for every capacity `N ≥ 1` (with the configured slot list
at least `N` long, the `ReportConfig` invariant) and every number `M` of
images that pass validation and detector read, the run produces the header
slide plus exactly `⌈M/N⌉` content slides, a new content slide being
allocated exactly when the count of placed images is a multiple of `N`;
the deck is left unsaved only when there are no candidates at all — when
candidates exist but `M = 0` the deck is still saved, with the header slide
and zero content slides. -/
theorem C1_slides_de_conteudo (cfg : Config) (env : Env)
    (hsrc : env.sourceExists = true) (htpl : env.templateExists = true)
    (hN : 1 ≤ cfg.layout_por_slide) (hpos : cfg.layout_por_slide ≤ cfg.posicoes.length) :
    (env.listing.filter isImagem = [] → (processar_imagens cfg env).guardado = false)
    ∧ (env.listing.filter isImagem ≠ [] →
      (processar_imagens cfg env).guardado = true
      ∧ (processar_imagens cfg env).headerSlide = true
      ∧ (processar_imagens cfg env).contentSlides
          = (((imagensEncontradas env.listing).filter (placedOk env)).length
              + cfg.layout_por_slide - 1) / cfg.layout_por_slide) := by
  constructor
  · intro h3
    rw [processar_imagens_semImagens cfg env hsrc htpl h3]
  · intro h3
    rw [processar_imagens_sucesso cfg env hsrc htpl h3]
    refine ⟨rfl, rfl, ?_⟩
    have hchar := loopCore_char cfg env (by omega) hpos
      (imagensEncontradas env.listing) ⟨0, 0, [], []⟩
    have hinv0 : (⟨0, 0, [], []⟩ : Core).contentSlides
        = ((⟨0, 0, [], []⟩ : Core).contador + cfg.layout_por_slide - 1)
            / cfg.layout_por_slide := by
      show (0 : ℕ) = (0 + cfg.layout_por_slide - 1) / cfg.layout_por_slide
      rw [Nat.zero_add]
      exact (Nat.div_eq_of_lt (by omega)).symm
    have hslides := hchar.2.2.2 hinv0
    have hcont := hchar.1
    have hc := loopInit_core cfg env (imagensEncontradas env.listing).length
      (imagensEncontradas env.listing)
    have hproj : (loopImagens cfg env (imagensEncontradas env.listing).length
        (imagensEncontradas env.listing) 0 ⟨0, 0, [], [], []⟩).contentSlides
        = (loopCore cfg env (imagensEncontradas env.listing) ⟨0, 0, [], []⟩).contentSlides :=
      congrArg Core.contentSlides hc
    show (loopImagens cfg env (imagensEncontradas env.listing).length
        (imagensEncontradas env.listing) 0 ⟨0, 0, [], [], []⟩).contentSlides = _
    rw [hproj, hslides, hcont]
    simp

/-- C1 witness for the amended theorem: three valid images at capacity two
give `⌈3/2⌉ = 2` content slides. -/
theorem C1_slides_de_conteudo_witness :
    (1 ≤ cfgA.layout_por_slide ∧ cfgA.layout_por_slide ≤ cfgA.posicoes.length
      ∧ envTres.listing.filter isImagem ≠ []
      ∧ (((imagensEncontradas envTres.listing).filter (placedOk envTres)).length
          + cfgA.layout_por_slide - 1) / cfgA.layout_por_slide = 2)
    ∧ ((processar_imagens cfgA envTres).guardado = true
      ∧ (processar_imagens cfgA envTres).headerSlide = true
      ∧ (processar_imagens cfgA envTres).contentSlides
          = (((imagensEncontradas envTres.listing).filter (placedOk envTres)).length
              + cfgA.layout_por_slide - 1) / cfgA.layout_por_slide) :=
  ⟨⟨by decide, by decide, by decide, by decide⟩,
   (C1_slides_de_conteudo cfgA envTres rfl rfl (by decide) (by decide)).2 (by decide)⟩

/-- C4: the candidate set is exactly the listed files whose extension matches
png/jpg/jpeg/gif/bmp case-insensitively; candidates are processed in
ascending lexicographic filename order; consequently (for distinct listed
filenames) the placed images appear in strictly ascending filename order,
and the `j`-th placement (counting successfully placed images from zero)
lands in slot `j % N` of content slide `j / N`. -/
theorem C4_candidatos_ordenados (cfg : Config) (env : Env)
    (hnodup : env.listing.Nodup) (hN : cfg.layout_por_slide ≠ 0)
    (hpos : cfg.layout_por_slide ≤ cfg.posicoes.length) :
    (∀ f : Nome, f ∈ imagensEncontradas env.listing ↔ (f ∈ env.listing ∧ isImagem f = true))
    ∧ (imagensEncontradas env.listing).Sorted (· ≤ ·)
    ∧ ((processar_imagens cfg env).placements.map Placement.nome).Sorted (· < ·)
    ∧ (∀ (j : ℕ) (pl : Placement),
        (processar_imagens cfg env).placements.get? j = some pl →
        pl.slotIdx = j % cfg.layout_por_slide ∧ pl.slideIdx = j / cfg.layout_por_slide) := by
  have hplac : (processar_imagens cfg env).placements = []
      ∨ (processar_imagens cfg env).placements
          = colocadasFrom cfg 0 ((imagensEncontradas env.listing).filter (placedOk env)) := by
    by_cases h1 : env.sourceExists = true
    · by_cases h2 : env.templateExists = true
      · by_cases h3 : env.listing.filter isImagem = []
        · left
          rw [processar_imagens_semImagens cfg env h1 h2 h3]
        · right
          rw [processar_imagens_sucesso cfg env h1 h2 h3]
          show (loopImagens cfg env (imagensEncontradas env.listing).length
              (imagensEncontradas env.listing) 0 ⟨0, 0, [], [], []⟩).placements = _
          have hproj : (loopImagens cfg env (imagensEncontradas env.listing).length
              (imagensEncontradas env.listing) 0 ⟨0, 0, [], [], []⟩).placements
              = (loopCore cfg env (imagensEncontradas env.listing)
                  ⟨0, 0, [], []⟩).placements :=
            congrArg Core.placements (loopInit_core cfg env _ _)
          have hchar := loopCore_char cfg env hN hpos (imagensEncontradas env.listing)
            ⟨0, 0, [], []⟩
          rw [hproj, hchar.2.1]
          simp
      · left
        rw [processar_imagens_template cfg env h1 (Bool.eq_false_iff.mpr h2)]
    · left
      rw [processar_imagens_origem cfg env (Bool.eq_false_iff.mpr h1)]
  refine ⟨mem_imagensEncontradas env.listing, imagensEncontradas_sorted env.listing, ?_, ?_⟩
  · rcases hplac with h | h
    · rw [h]
      simp
    · rw [h, colocadasFrom_map_nome]
      have hsort := imagensEncontradas_sorted env.listing
      have hnd := imagensEncontradas_nodup env.listing hnodup
      exact (hsort.filter _).lt_of_le (hnd.filter _)
  · intro j pl hj
    rcases hplac with h | h
    · rw [h] at hj
      simp at hj
    · rw [h] at hj
      have := colocadasFrom_get? cfg _ 0 j pl hj
      simpa using this

/-- C4 witness: on the three-image run the placed filenames are strictly
ascending (the hypotheses — distinct listed names, positive capacity with
enough slots — hold for the concrete fixture). -/
theorem C4_candidatos_ordenados_witness :
    (envTres.listing.Nodup ∧ cfgA.layout_por_slide ≠ 0
      ∧ cfgA.layout_por_slide ≤ cfgA.posicoes.length)
    ∧ ((processar_imagens cfgA envTres).placements.map Placement.nome).Sorted (· < ·) :=
  ⟨⟨by decide, by decide, by decide⟩,
   (C4_candidatos_ordenados cfgA envTres (by decide) (by decide) (by decide)).2.2.1⟩

/-- C3: a candidate whose processing fails (structural validation failure or
detector read failure — the modelled per-file exceptions) is absorbed inside
the loop: deleting it from the candidate list leaves the loop's placement
state (counter, content slides, placements, moved files) unchanged, wherever
in the list it sits and whatever state the loop is in when it reaches it —
so the remaining valid files are still placed and moved exactly as without
it; and the run itself still completes, saving the deck and emitting the
terminal sentinel. -/
theorem C3_excecao_nao_aborta (cfg : Config) (env : Env) (b : Nome)
    (hbad : env.pilOk b = false ∨ env.cvDecode b = none) :
    (∀ (l₁ l₂ : List Nome) (c : Core),
      loopCore cfg env (l₁ ++ b :: l₂) c = loopCore cfg env (l₁ ++ l₂) c)
    ∧ (env.sourceExists = true → env.templateExists = true →
        env.listing.filter isImagem ≠ [] →
        (processar_imagens cfg env).guardado = true
        ∧ Msg.finalizado ∈ (processar_imagens cfg env).sink) := by
  have hpb : placedOk env b = false := by
    rcases hbad with h | h
    · simp [placedOk, h]
    · simp [placedOk, h]
  constructor
  · intro l₁ l₂ c
    simp only [loopCore, List.foldl_append, List.foldl_cons]
    rw [stepCore_skip cfg env b _ hpb]
  · intro h1 h2 h3
    rw [processar_imagens_sucesso cfg env h1 h2 h3]
    exact ⟨rfl, by simp⟩

/-- C3 witness: with `b.png` structurally corrupt among `a.png`, `c.png`,
its neighbours' placement state is the same as if it were absent, and the
run still saves the deck and pushes the sentinel. -/
theorem C3_excecao_nao_aborta_witness :
    (envMisto.pilOk (codes "b.png") = false ∨ envMisto.cvDecode (codes "b.png") = none)
    ∧ (loopCore cfgA envMisto ([codes "a.png"] ++ codes "b.png" :: [codes "c.png"])
          ⟨0, 0, [], []⟩
        = loopCore cfgA envMisto ([codes "a.png"] ++ [codes "c.png"]) ⟨0, 0, [], []⟩)
    ∧ (processar_imagens cfgA envMisto).guardado = true
    ∧ Msg.finalizado ∈ (processar_imagens cfgA envMisto).sink := by
  have h := C3_excecao_nao_aborta cfgA envMisto (codes "b.png") (Or.inl (by decide))
  exact ⟨Or.inl (by decide),
    h.1 [codes "a.png"] [codes "c.png"] ⟨0, 0, [], []⟩,
    (h.2 rfl rfl (by decide)).1, (h.2 rfl rfl (by decide)).2⟩

set_option maxRecDepth 100000 in
/-- C7 counterexample: with fifty candidates the 29th attempt (index 28 of
the emitted progress sequence) reports 57, yet
`floor(100 * 29 / 50) = 58` — the binary64 computation
`int(((i + 1) / total_imagens) * 100)` of line 156 rounds `29/50` slightly
below its real value, so the emitted percentage is not always
`floor(100 * attempted / total)`. -/
theorem C7_contraexemplo :
    (valoresProgresso (processar_imagens cfgA env50).sink).get? 28 = some 57
    ∧ 100 * 29 / 50 = 58 := ⟨by decide, by decide⟩

/-- C7 as amended: over a non-empty candidate list the emitted PROGRESSO
values are exactly `progresso k total` for `k = 1, …, total` — the binary64
evaluation of `int(((k / total)) * 100)`, which can fall one below
`floor(100 * k / total)`; the sequence counts attempted files, is
monotonically non-decreasing, stays at most 99 before the last attempt
(whenever `total ≤ 2^53`), and the last attempt emits exactly 100. -/
theorem C7_progresso_monotono (cfg : Config) (env : Env)
    (h1 : env.sourceExists = true) (h2 : env.templateExists = true)
    (h3 : env.listing.filter isImagem ≠ [])
    (ht53 : (imagensEncontradas env.listing).length ≤ 2 ^ 53) :
    valoresProgresso (processar_imagens cfg env).sink
      = (List.range' 1 (imagensEncontradas env.listing).length).map
          (fun k => progresso k (imagensEncontradas env.listing).length)
    ∧ (valoresProgresso (processar_imagens cfg env).sink).Chain' (· ≤ ·)
    ∧ (∀ k, 1 ≤ k → k < (imagensEncontradas env.listing).length →
        progresso k (imagensEncontradas env.listing).length ≤ 99)
    ∧ progresso (imagensEncontradas env.listing).length
        (imagensEncontradas env.listing).length = 100 := by
  have hT1 : 1 ≤ (imagensEncontradas env.listing).length :=
    List.length_pos.mpr (imagensEncontradas_ne_nil env.listing h3)
  have hsink : valoresProgresso (processar_imagens cfg env).sink
      = (List.range' 1 (imagensEncontradas env.listing).length).map
          (fun k => progresso k (imagensEncontradas env.listing).length) := by
    rw [processar_imagens_sucesso cfg env h1 h2 h3]
    show valoresProgresso
        ((loopImagens cfg env (imagensEncontradas env.listing).length
            (imagensEncontradas env.listing) 0 ⟨0, 0, [], [], []⟩).sink
          ++ [Msg.separador, Msg.concluido, Msg.salvoEm, Msg.finalizado]) = _
    rw [valoresProgresso_append, loopInit_sink, valoresProgresso_msgsLoop]
    simp [valoresProgresso]
  refine ⟨hsink, ?_, ?_, progresso_total _ hT1⟩
  · rw [hsink, List.chain'_map]
    apply List.Pairwise.chain'
    apply List.Pairwise.imp_of_mem ?_
      (List.pairwise_lt_range' 1 (imagensEncontradas env.listing).length)
    intro a b ha hb hlt
    have ha' := List.mem_range'_1.mp ha
    have hb' := List.mem_range'_1.mp hb
    have hT0 : (0 : ℚ) < ((imagensEncontradas env.listing).length : ℚ) := by
      exact_mod_cast hT1
    apply progresso_mono a _ b _ ha'.1 (by omega) (by omega) (by omega)
    rw [div_le_div_iff₀ hT0 hT0]
    have hab : (a : ℚ) ≤ (b : ℚ) := by exact_mod_cast le_of_lt hlt
    nlinarith
  · intro k hk hklt
    exact progresso_le_99 k _ hk hklt ht53

/-- C7 witness for the amended theorem: three candidates give the progress
sequence `progresso 1 3, progresso 2 3, progresso 3 3` and the last value
is 100. -/
theorem C7_progresso_monotono_witness :
    (envTres.sourceExists = true ∧ envTres.templateExists = true
      ∧ envTres.listing.filter isImagem ≠ []
      ∧ (imagensEncontradas envTres.listing).length ≤ 2 ^ 53)
    ∧ valoresProgresso (processar_imagens cfgA envTres).sink
        = (List.range' 1 (imagensEncontradas envTres.listing).length).map
            (fun k => progresso k (imagensEncontradas envTres.listing).length)
    ∧ progresso (imagensEncontradas envTres.listing).length
        (imagensEncontradas envTres.listing).length = 100 :=
  ⟨⟨rfl, rfl, by decide, by decide⟩,
   (C7_progresso_monotono cfgA envTres rfl rfl (by decide) (by decide)).1,
   (C7_progresso_monotono cfgA envTres rfl rfl (by decide) (by decide)).2.2.2⟩
